import Mathlib

/-!
DMR hook functions of the MD380 applet (`applet/src/dmr.c`)

A shallow embedding of `dmr.c` and a verification of its call tracker, its
squelch hooks and its address decoding.

Conventions of the embedding

* `uint8_t` is `Fin 256`; a packet pointer is the byte found at each offset
  from it (`Frame`), so reading `pkt[i]` never fails, as in C. No hook writes
  through a packet pointer, so a packet is handed on as it came.
* The squelch hooks take the byte `*mode` and return the byte it holds at the
  end.
* C `int` values are `Int`; where the 32 bit representation matters it is
  spelled out with `% 2 ^ 32` (`int_of_bits`).
* The globals `incall`, `g_dst`, `g_src`, `i` and the configuration byte
  `global_addl_config.promtg` are fields of `World`.
* Functions of the original firmware (the four original handlers,
  `dmr_before_squelch`, `md380_OSMboxPost`, `red_led`, the critical section
  primitives) are fields of `Firmware`, acting on a firmware state the applet
  cannot see. Each call is also appended to the log `World.out`, together with
  every output call and every store to a shared variable, in program order.
-/

namespace MD380

/-! ## Types -/

/-- An octet, the C type `uint8_t`. -/
abbrev uint8_t := Fin 256

/-- The memory a packet pointer refers to: the byte at each offset. -/
abbrev Frame := Nat → uint8_t

/-- What the C implementation leaves to the compiler: whether plain `char` is
signed, and whether bit-fields are allocated from the least significant bit. -/
structure ABI where
  char_signed : Bool
  bitfield_lsb_first : Bool
deriving DecidableEq

/-- The ABI of the radio (ARM Cortex-M4, ARM EABI): plain `char` is unsigned
and bit-fields start at the least significant bit. -/
def arm_eabi : ABI := { char_signed := false, bitfield_lsb_first := true }

/-- The struct `adr_t` (lines 42-46). -/
structure adr_t where
  b16 : uint8_t
  b8 : uint8_t
  b0 : uint8_t
deriving DecidableEq

/-- The struct `lc_t` (lines 115-121). -/
structure lc_t where
  pf_flco : uint8_t
  fid : uint8_t
  svc_opts : uint8_t
  dst : adr_t
  src : adr_t
deriving DecidableEq

/-- The struct `raw_sh_hdr_t` (lines 84-94); the bit-fields hold their value. -/
structure raw_sh_hdr_t where
  b0 : uint8_t
  sap : Nat
  ab2 : Nat
  dst : adr_t
  src : adr_t
  sp : Nat
  dp : Nat
  sf : Nat
deriving DecidableEq

/-- One argument of a formatted output call. -/
inductive Arg where
  | int (v : Int)
  | str (s : String)
deriving DecidableEq

/-- The shared variables written by the hooks. -/
inductive Var where
  | incall
  | g_dst
  | g_src
  | i
  | mode
deriving DecidableEq

/-- Everything a hook does that is visible from outside, in program order.
`PRINT` and `NMPRINT` are the output macros of `debug.h` and `netmon.h`
(enabled by lines 12 and 13); each use is logged with its format and arguments,
like a call of `printf` or `printhex`. A `store` is an assignment to a shared
variable; `md380_OSMboxPost` is logged with the byte `*mode` holds at the call. -/
inductive Effect where
  | printf (fmt : String) (args : List Arg)
  | PRINT (fmt : String) (args : List Arg)
  | NMPRINT (fmt : String) (args : List Arg)
  | printhex (pkt : Frame) (len : Int)
  | store (v : Var) (val : Int)
  | red_led (v : Int)
  | OS_ENTER_CRITICAL
  | OS_EXIT_CRITICAL (primask : Int)
  | dmr_before_squelch
  | md380_OSMboxPost (event : Nat) (mode : uint8_t)
  | dmr_call_start (pkt : Frame)
  | dmr_call_end (pkt : Frame)
  | dmr_handle_data (pkt : Frame) (len : Int)
  | dmr_sms_arrive (pkt : Frame)

/-- The functions of the original firmware the hooks call. Each acts on a
firmware state `σ`; the original handlers return a `void *`, taken as a number. -/
structure Firmware (σ : Type) where
  dmr_call_start : Frame → σ → Nat × σ
  dmr_call_end : Frame → σ → Nat × σ
  dmr_handle_data : Frame → Int → σ → Nat × σ
  dmr_sms_arrive : Frame → σ → Nat × σ
  dmr_before_squelch : σ → σ
  md380_OSMboxPost : Nat → uint8_t → σ → σ
  red_led : Int → σ → σ
  OS_ENTER_CRITICAL : σ → Int × σ
  OS_EXIT_CRITICAL : Int → σ → σ

/-- The state the hooks run in: the globals of `dmr.c` (lines 33, 39, 40, 106),
the monitor byte `global_addl_config.promtg`, the firmware state and the log. -/
structure World (σ : Type) where
  incall : Int
  g_dst : Int
  g_src : Int
  i : Int
  promtg : uint8_t
  fw : σ
  out : List Effect

/-- The state at system start: C zero-initialises the globals. -/
def World.init {σ : Type} (promtg : uint8_t) (s : σ) : World σ :=
  { incall := 0, g_dst := 0, g_src := 0, i := 0, promtg := promtg, fw := s, out := [] }

/-- Append one effect to the log. -/
def emit {σ : Type} (e : Effect) (w : World σ) : World σ :=
  { w with out := w.out ++ [e] }

/-! ## Integer representation -/

/-- The `int` a 32 bit pattern stands for, in two-complement representation. -/
def int_of_bits (n : Nat) : Int :=
  if n % 2 ^ 32 < 2 ^ 31 then ((n % 2 ^ 32 : Nat) : Int) else ((n % 2 ^ 32 : Nat) : Int) - 2 ^ 32

/-- The `int` an arithmetic result is kept as: its low 32 bits, read as an
`int`. -/
def wrap_int (x : Int) : Int :=
  int_of_bits (x % 2 ^ 32).toNat

/-- Integer promotion of a `uint8_t`, as a 32 bit pattern. -/
def bits_of_uint8 (c : uint8_t) : Nat := c.val

/-- Integer promotion of a plain `char`, as a 32 bit pattern: sign extended
when `char` is signed. -/
def bits_of_char (abi : ABI) (c : uint8_t) : Nat :=
  if abi.char_signed && decide (128 ≤ c.val) then c.val + 0xFFFFFF00 else c.val

/-- The expression `x0 | (x8 << 8) | (x16 << 16)` on promoted operands
(lines 181-183, 185-187, 229-231, 233-235), as an `int`. -/
def or_shift (x0 x8 x16 : Nat) : Int :=
  int_of_bits ((x0 ||| ((x8 <<< 8) % 2 ^ 32) ||| ((x16 <<< 16) % 2 ^ 32)) % 2 ^ 32)

/-! ## Address and header decoding -/

/-- The function `get_adr` (lines 96-99), returning `uint32_t`. -/
def get_adr (a : adr_t) : Nat :=
  (a.b0.val ||| (a.b8.val <<< 8) ||| (a.b16.val <<< 16)) % 2 ^ 32

/-- An `adr_t` lying at offset `off` of a packet. -/
def adr_at (pkt : Frame) (off : Nat) : adr_t :=
  { b16 := pkt off, b8 := pkt (off + 1), b0 := pkt (off + 2) }

/-- An `lc_t` lying at offset `off` of a packet (the cast on line 158). -/
def lc_at (pkt : Frame) (off : Nat) : lc_t :=
  { pf_flco := pkt off, fid := pkt (off + 1), svc_opts := pkt (off + 2),
    dst := adr_at pkt (off + 3), src := adr_at pkt (off + 6) }

/-- A `raw_sh_hdr_t` lying at offset `off` of a packet (the casts on lines 330
and 379). The bit-fields share the byte after `b0` and the byte after `src`;
which bits each one takes depends on the ABI. -/
def raw_sh_hdr_at (abi : ABI) (pkt : Frame) (off : Nat) : raw_sh_hdr_t :=
  let x := (pkt (off + 1)).val
  let t := (pkt (off + 8)).val
  { b0 := pkt off,
    sap := if abi.bitfield_lsb_first then x % 16 else x / 16,
    ab2 := if abi.bitfield_lsb_first then x / 16 else x % 16,
    dst := adr_at pkt (off + 2),
    src := adr_at pkt (off + 5),
    sp := if abi.bitfield_lsb_first then t % 8 else t / 32,
    dp := if abi.bitfield_lsb_first then (t / 8) % 8 else (t / 4) % 8,
    sf := if abi.bitfield_lsb_first then t / 64 else t % 4 }

/-- The function `get_flco` (lines 123-126). -/
def get_flco (lc : lc_t) : Nat := lc.pf_flco.val &&& 0x3f

/-- The function `get_flco_str` (lines 128-140). -/
def get_flco_str (lc : lc_t) : String :=
  match get_flco lc with
  | 0 => "grp"
  | 3 => "u2u"
  | _ => "?"

/-- The function `dump_raw_short_header` (lines 108-113). -/
def dump_raw_short_header {σ : Type} (tag : String) (pkt : raw_sh_hdr_t) (w : World σ) :
    World σ :=
  let w := emit (.store .i pkt.sap) { w with i := pkt.sap }
  let args := [Arg.str tag, Arg.int pkt.sap, Arg.int (get_adr pkt.src), Arg.int (get_adr pkt.dst),
    Arg.int pkt.sp, Arg.int pkt.dp]
  let w := emit (.NMPRINT "%s(sap=%d,src=%d,dst=%d,sp=%d,dp=%d) " args) w
  emit (.PRINT "%s(sap=%d,src=%d,dst=%d,sp=%d,dp=%d)\n" args) w

/-- The function `dump_full_lc` (lines 143-150). -/
def dump_full_lc {σ : Type} (lc : lc_t) (w : World σ) : World σ :=
  let flco := get_flco lc
  let fid := lc.fid
  let opts := lc.svc_opts
  emit (.PRINT "flco=%d %s fid=%d svc=%d src=%d dst=%d\n"
    [Arg.int flco, Arg.str (get_flco_str lc), Arg.int fid.val, Arg.int opts.val,
     Arg.int (get_adr lc.src), Arg.int (get_adr lc.dst)]) w

/-- The function `dumpraw_lc` (lines 152-160). -/
def dumpraw_lc {σ : Type} (pkt : Frame) (w : World σ) : World σ :=
  let tp := (pkt 1).val >>> 4
  let w := emit (.PRINT "type=%d " [Arg.int tp]) w
  dump_full_lc (lc_at pkt 2) w

/-! ## Calls into the firmware -/

/-- Call one of the original handlers: log the call, step the firmware state,
hand back the returned value. -/
def call_original {σ : Type} (e : Effect) (f : σ → Nat × σ) (w : World σ) : Nat × World σ :=
  ((f w.fw).1, { w with fw := (f w.fw).2, out := w.out ++ [e] })

/-- Call a firmware function that returns nothing the hook uses. -/
def call_firmware {σ : Type} (e : Effect) (f : σ → σ) (w : World σ) : World σ :=
  { w with fw := f w.fw, out := w.out ++ [e] }

/-! ## The hooks -/

/-- The function `dmr_call_end_hook` (lines 162-199). The packet is read
through `char *`. -/
def dmr_call_end_hook {σ : Type} (abi : ABI) (fw : Firmware σ) (pkt : Frame) (w : World σ) :
    Nat × World σ :=
  let w := emit (.PRINT "ce " []) w
  let w := dumpraw_lc pkt w
  let dst := or_shift (bits_of_char abi (pkt 7)) (bits_of_char abi (pkt 6))
    (bits_of_char abi (pkt 5))
  let src := or_shift (bits_of_char abi (pkt 10)) (bits_of_char abi (pkt 9))
    (bits_of_char abi (pkt 8))
  let w := if w.incall ≠ 0 then
      emit (.printf "\nCall from %d to %d ended.\n" [Arg.int src, Arg.int dst]) w
    else w
  let w := emit (.store .incall 0) { w with incall := 0 }
  call_original (.dmr_call_end pkt) (fw.dmr_call_end pkt) w

/-- The function `dmr_call_start_hook` (lines 201-269). The packet is read
through `uint8_t *`. -/
def dmr_call_start_hook {σ : Type} (fw : Firmware σ) (pkt : Frame) (w : World σ) :
    Nat × World σ :=
  let w := emit (.PRINT "cs " []) w
  let w := dumpraw_lc pkt w
  let dst := or_shift (bits_of_uint8 (pkt 7)) (bits_of_uint8 (pkt 6)) (bits_of_uint8 (pkt 5))
  let src := or_shift (bits_of_uint8 (pkt 10)) (bits_of_uint8 (pkt 9)) (bits_of_uint8 (pkt 8))
  let primask := (fw.OS_ENTER_CRITICAL w.fw).1
  let w := call_firmware .OS_ENTER_CRITICAL (fun s => (fw.OS_ENTER_CRITICAL s).2) w
  let w := emit (.store .g_dst dst) { w with g_dst := dst }
  let w := emit (.store .g_src src) { w with g_src := src }
  let w := call_firmware (.OS_EXIT_CRITICAL primask) (fw.OS_EXIT_CRITICAL primask) w
  let w := if w.incall = 0 then
      emit (.printf "\nCall from %d to %d started.\n" [Arg.int src, Arg.int dst]) w
    else w
  let w := emit (.store .incall 1) { w with incall := 1 }
  call_original (.dmr_call_start pkt) (fw.dmr_call_start pkt) w

/-- The function `dmr_apply_squelch_hook` (lines 272-298). The argument `mode`
is the byte `*mode` on entry; the result is the byte `*mode` on return. -/
def dmr_apply_squelch_hook {σ : Type} (fw : Firmware σ) (event : Nat) (mode : uint8_t)
    (w : World σ) : uint8_t × World σ :=
  if mode = 0x08 ∧ w.promtg = 1 then
    let w := emit (.printf "Applying monitor mode to a public call.\n" []) w
    let mode : uint8_t := 0x09
    let w := emit (.store .mode 0x09) w
    let w := call_firmware .dmr_before_squelch fw.dmr_before_squelch w
    (mode, call_firmware (.md380_OSMboxPost event mode) (fw.md380_OSMboxPost event mode) w)
  else
    (mode, call_firmware (.md380_OSMboxPost event mode) (fw.md380_OSMboxPost event mode) w)

/-- The function `dmr_apply_privsquelch_hook` (lines 300-316). -/
def dmr_apply_privsquelch_hook {σ : Type} (fw : Firmware σ) (event : Nat) (mode : uint8_t)
    (w : World σ) : uint8_t × World σ :=
  if mode = 0x08 ∧ w.promtg = 1 then
    let w := emit (.printf "Applying monitor mode to a private call.\n" []) w
    let mode : uint8_t := 0x09
    let w := emit (.store .mode 0x09) w
    let w := call_firmware .dmr_before_squelch fw.dmr_before_squelch w
    (mode, call_firmware (.md380_OSMboxPost event mode) (fw.md380_OSMboxPost event mode) w)
  else
    (mode, call_firmware (.md380_OSMboxPost event mode) (fw.md380_OSMboxPost event mode) w)

/-- The function `dmr_handle_data_hook` (lines 319-345), with `CONFIG_DMR`
defined (line 10). The sum `len + 2` is an `int`. -/
def dmr_handle_data_hook {σ : Type} (abi : ABI) (fw : Firmware σ) (pkt : Frame) (len : Int)
    (w : World σ) : Nat × World σ :=
  let w := dump_raw_short_header "da" (raw_sh_hdr_at abi pkt 2) w
  let w := call_firmware (.red_led 1) (fw.red_led 1) w
  let w := emit (.printf "Data:       " []) w
  let w := emit (.printhex pkt (wrap_int (len + 2))) w
  let w := emit (.printf "\n" []) w
  call_original (.dmr_handle_data pkt len) (fw.dmr_handle_data pkt len) w

/-- The function `dmr_sms_arrive_hook` (lines 348-393), with `CONFIG_DMR`
defined (line 10). -/
def dmr_sms_arrive_hook {σ : Type} (abi : ABI) (fw : Firmware σ) (pkt : Frame) (w : World σ) :
    Nat × World σ :=
  let w := dump_raw_short_header "sm" (raw_sh_hdr_at abi pkt 2) w
  let w := call_firmware (.red_led 1) (fw.red_led 1) w
  let w := emit (.printf "SMS header: " []) w
  let w := emit (.printhex pkt (12 + 2)) w
  let w := emit (.printf "\n" []) w
  call_original (.dmr_sms_arrive pkt) (fw.dmr_sms_arrive pkt) w

/-! ## Runs of hook invocations -/

/-- One invocation of a hook by the radio stack, with its arguments. -/
inductive Invocation where
  | call_start (pkt : Frame)
  | call_end (pkt : Frame)
  | handle_data (pkt : Frame) (len : Int)
  | sms_arrive (pkt : Frame)
  | apply_squelch (event : Nat) (mode : uint8_t)
  | apply_privsquelch (event : Nat) (mode : uint8_t)

/-- The state after one invocation. -/
def invoke {σ : Type} (abi : ABI) (fw : Firmware σ) (c : Invocation) (w : World σ) : World σ :=
  match c with
  | .call_start pkt => (dmr_call_start_hook fw pkt w).2
  | .call_end pkt => (dmr_call_end_hook abi fw pkt w).2
  | .handle_data pkt len => (dmr_handle_data_hook abi fw pkt len w).2
  | .sms_arrive pkt => (dmr_sms_arrive_hook abi fw pkt w).2
  | .apply_squelch event mode => (dmr_apply_squelch_hook fw event mode w).2
  | .apply_privsquelch event mode => (dmr_apply_privsquelch_hook fw event mode w).2

/-- The state after a sequence of invocations, first to last. -/
def run {σ : Type} (abi : ABI) (fw : Firmware σ) (cs : List Invocation) (w : World σ) : World σ :=
  cs.foldl (fun w c => invoke abi fw c w) w

/-- The effects logged between an earlier state and a later one. -/
def emitted {σ : Type} (w w1 : World σ) : List Effect :=
  w1.out.drop w.out.length

/-! ## Reading the log -/

/-- The notification "Call from SRC to DST started." (line 262). -/
def call_started (src dst : Int) : Effect :=
  .printf "\nCall from %d to %d started.\n" [Arg.int src, Arg.int dst]

/-- The notification "Call from SRC to DST ended." (line 193). -/
def call_ended (src dst : Int) : Effect :=
  .printf "\nCall from %d to %d ended.\n" [Arg.int src, Arg.int dst]

/-- Whether an effect is a "call started" notification. -/
def is_call_started : Effect → Bool
  | .printf fmt _ => decide (fmt = "\nCall from %d to %d started.\n")
  | _ => false

/-- Whether an effect is a "call ended" notification. -/
def is_call_ended : Effect → Bool
  | .printf fmt _ => decide (fmt = "\nCall from %d to %d ended.\n")
  | _ => false

/-- Whether an effect is a call notification of either kind. -/
def is_notification (e : Effect) : Bool :=
  is_call_started e || is_call_ended e

/-- Whether an effect is a call of one of the four original handlers. -/
def is_original_call : Effect → Bool
  | .dmr_call_start _ => true
  | .dmr_call_end _ => true
  | .dmr_handle_data _ _ => true
  | .dmr_sms_arrive _ => true
  | _ => false

/-- Whether an effect is a call into the firmware made by a squelch hook. -/
def is_squelch_call : Effect → Bool
  | .dmr_before_squelch => true
  | .md380_OSMboxPost _ _ => true
  | _ => false

/-- Whether an effect is a message for the log sink. -/
def is_message : Effect → Bool
  | .printf _ _ => true
  | .PRINT _ _ => true
  | .NMPRINT _ _ => true
  | .printhex _ _ => true
  | _ => false

/-- Replace the wording "public call" of the monitor message by "private call". -/
def reword_private : Effect → Effect
  | .printf fmt args =>
    if fmt = "Applying monitor mode to a public call.\n" then
      .printf "Applying monitor mode to a private call.\n" args
    else .printf fmt args
  | e => e

/-- Whether an effect is the forward to `md380_OSMboxPost`. -/
def is_mbox_post : Effect → Bool
  | .md380_OSMboxPost _ _ => true
  | _ => false

/-- The monitor message of `dmr_apply_squelch_hook` (line 282). -/
def monitor_public : Effect := .printf "Applying monitor mode to a public call.\n" []

/-- The monitor message of `dmr_apply_privsquelch_hook` (line 310). -/
def monitor_private : Effect := .printf "Applying monitor mode to a private call.\n" []

/-! ## The address encoder of the specification -/

/-- Modelled from the spec: the address encoder `encode`, which `dmr.c` does not
contain (it only decodes). The byte triple of a 24 bit address is
`b16 = a >> 16`, `b8 = (a >> 8) & 0xff`, `b0 = a & 0xff`, each stored in a
`uint8_t`. -/
def encode_adr (a : Nat) : adr_t :=
  { b16 := Fin.ofNat (a >>> 16), b8 := Fin.ofNat ((a >>> 8) &&& 0xff), b0 := Fin.ofNat (a &&& 0xff) }

/-- A frame with the big-endian bytes of `dst` at offsets 5-7 and of `src` at
offsets 8-10, all other bytes zero. -/
def frame_of (src dst : Nat) : Frame := fun k =>
  if k = 5 then Fin.ofNat (dst / 65536) else if k = 6 then Fin.ofNat (dst / 256)
  else if k = 7 then Fin.ofNat dst else if k = 8 then Fin.ofNat (src / 65536)
  else if k = 9 then Fin.ofNat (src / 256) else if k = 10 then Fin.ofNat src else 0

/-- A frame given by its first bytes, zero beyond them. -/
def frame_of_bytes (bs : List uint8_t) : Frame := fun k => bs.getD k 0

/-- The call-start frame of the comment on line 222, from 3147092 to 99. -/
def call_start_example : Frame :=
  frame_of_bytes [0x08, 0x1a, 0x00, 0x00, 0x00, 0x00, 0x00, 0x63, 0x30, 0x05, 0x54, 0x73, 0xe3,
    0xae]

/-- The call-end frame of the comment on line 173, from 3147092 to 99. -/
def call_end_example : Frame :=
  frame_of_bytes [0x08, 0x2a, 0x00, 0x00, 0x00, 0x00, 0x00, 0x63, 0x30, 0x05, 0x54, 0x7c, 0x2c,
    0x36]

/-- A call-start frame like the one of line 222 with other addresses: from 2
to 1. -/
def call_start_other : Frame :=
  frame_of_bytes [0x08, 0x1a, 0x00, 0x00, 0x00, 0x00, 0x00, 0x01, 0x00, 0x00, 0x02, 0x73, 0xe3,
    0xae]

/-- The frame carries source `s` and destination `d` in its Full LC address
fields, as `get_adr` reads them. -/
def carries (pkt : Frame) (s d : Nat) : Prop :=
  get_adr (adr_at pkt 8) = s ∧ get_adr (adr_at pkt 5) = d

/-- A firmware whose handlers return a fixed value and keep no state. -/
def stub_firmware (r : Nat) : Firmware Unit :=
  { dmr_call_start := fun _ s => (r, s),
    dmr_call_end := fun _ s => (r, s),
    dmr_handle_data := fun _ _ s => (r, s),
    dmr_sms_arrive := fun _ s => (r, s),
    dmr_before_squelch := fun s => s,
    md380_OSMboxPost := fun _ _ s => s,
    red_led := fun _ s => s,
    OS_ENTER_CRITICAL := fun s => (0, s),
    OS_EXIT_CRITICAL := fun _ s => s }

/-- A firmware whose state is the list of the calls made into it, each with
one number: the mode byte for `md380_OSMboxPost`, the argument for `red_led`
and `OS_EXIT_CRITICAL`, 0 otherwise. Its handlers return 0. -/
def trace_firmware : Firmware (List (String × Int)) :=
  { dmr_call_start := fun _ s => (0, s ++ [("dmr_call_start", 0)]),
    dmr_call_end := fun _ s => (0, s ++ [("dmr_call_end", 0)]),
    dmr_handle_data := fun _ _ s => (0, s ++ [("dmr_handle_data", 0)]),
    dmr_sms_arrive := fun _ s => (0, s ++ [("dmr_sms_arrive", 0)]),
    dmr_before_squelch := fun s => s ++ [("dmr_before_squelch", 0)],
    md380_OSMboxPost := fun _ mode s => s ++ [("md380_OSMboxPost", (mode.val : Int))],
    red_led := fun v s => s ++ [("red_led", v)],
    OS_ENTER_CRITICAL := fun s => (0, s ++ [("OS_ENTER_CRITICAL", 0)]),
    OS_EXIT_CRITICAL := fun primask s => s ++ [("OS_EXIT_CRITICAL", primask)] }

/-- The debug lines `dumpraw_lc` writes. -/
def lc_dump (pkt : Frame) : List Effect :=
  [.PRINT "type=%d " [Arg.int ((pkt 1).val >>> 4 : Nat)],
   .PRINT "flco=%d %s fid=%d svc=%d src=%d dst=%d\n"
    [Arg.int (get_flco (lc_at pkt 2) : Nat), Arg.str (get_flco_str (lc_at pkt 2)),
     Arg.int ((pkt 3).val : Nat), Arg.int ((pkt 4).val : Nat),
     Arg.int (get_adr (adr_at pkt 8) : Nat), Arg.int (get_adr (adr_at pkt 5) : Nat)]]

/-- The address the call-end hook computes by hand from the three bytes at
`off`, read through `char *` (lines 181-187). -/
def char_adr (abi : ABI) (pkt : Frame) (off : Nat) : Int :=
  or_shift (bits_of_char abi (pkt (off + 2))) (bits_of_char abi (pkt (off + 1)))
    (bits_of_char abi (pkt off))

/-- The debug lines `dump_raw_short_header` writes, after its store to `i`. -/
def sh_dump (tag : String) (h : raw_sh_hdr_t) : List Effect :=
  [.store .i h.sap,
   .NMPRINT "%s(sap=%d,src=%d,dst=%d,sp=%d,dp=%d) "
    [Arg.str tag, Arg.int h.sap, Arg.int (get_adr h.src), Arg.int (get_adr h.dst),
     Arg.int h.sp, Arg.int h.dp],
   .PRINT "%s(sap=%d,src=%d,dst=%d,sp=%d,dp=%d)\n"
    [Arg.str tag, Arg.int h.sap, Arg.int (get_adr h.src), Arg.int (get_adr h.dst),
     Arg.int h.sp, Arg.int h.dp]]

/-- The big-endian triplet at an offset of a frame:
`pkt[off] * 65536 + pkt[off + 1] * 256 + pkt[off + 2]`. -/
def triplet (pkt : Frame) (off : Nat) : Nat :=
  (pkt off).val * 65536 + (pkt (off + 1)).val * 256 + (pkt (off + 2)).val

/-- Whether an effect is a store to `g_dst` or `g_src`. -/
def is_address_store : Effect → Bool
  | .store .g_dst _ => true
  | .store .g_src _ => true
  | _ => false

/-! ## The short header: the documented frame and the layout of the specification -/

/-- The SMS header frame of the comment on line 366 (a transaction from 3147092
to 99), after the two given bytes of overhead. -/
def sms_header_frame (o0 o1 : uint8_t) : Frame :=
  frame_of_bytes [o0, o1, 0x02, 0x40, 0x00, 0x00, 0x63, 0x30, 0x05, 0x54, 0x88, 0x00, 0x83, 0x0c]

/-- The SMS header frame as the comment on line 366 gives it: `08 6a 02 40 ...`. -/
def sms_header_example : Frame := sms_header_frame 0x08 0x6a

/-- The header record of the specification (section 3), the addresses as
numbers. -/
structure ShortLinkControlHeader where
  sap : Nat
  ab2 : Nat
  dst : Nat
  src : Nat
  sp : Nat
  dp : Nat
  sf : Nat
deriving DecidableEq

/-- The wire layout as the specification states it (sections 3 and 6), to be
compared with the overlay of the source: after the two overhead bytes, byte 0
is `sap` (high nibble) and `ab2` (low nibble), bytes 1-3 are `dst`, bytes 4-6
are `src`, and the trailing byte is `sp` (top 3 bits), `dp` (middle 3 bits),
`sf` (low 2 bits). -/
def stated_short_header (pkt : Frame) : ShortLinkControlHeader :=
  { sap := (pkt 2).val / 16,
    ab2 := (pkt 2).val % 16,
    dst := triplet pkt 3,
    src := triplet pkt 6,
    sp := (pkt 9).val / 32,
    dp := ((pkt 9).val / 4) % 8,
    sf := (pkt 9).val % 4 }

/-- The fields of a `raw_sh_hdr_t` of the source as a header record, the
addresses read with `get_adr`. -/
def raw_sh_hdr_t.fields (h : raw_sh_hdr_t) : ShortLinkControlHeader :=
  { sap := h.sap, ab2 := h.ab2, dst := get_adr h.dst, src := get_adr h.src,
    sp := h.sp, dp := h.dp, sf := h.sf }

/-- Two frames hold the same bytes at every offset below `n`. -/
def agree_below (n : Nat) (p q : Frame) : Prop :=
  ∀ k, k < n → p k = q k

/-- The arguments of a formatted output call. -/
def print_args : Effect → List Arg
  | .printf _ args => args
  | .PRINT _ args => args
  | .NMPRINT _ args => args
  | _ => []

/-- The documented call-end frame with its byte at offset 10 changed from 0x54
to 0x55. -/
def call_end_example_byte10 : Frame :=
  frame_of_bytes [0x08, 0x2a, 0x00, 0x00, 0x00, 0x00, 0x00, 0x63, 0x30, 0x05, 0x55, 0x7c, 0x2c,
    0x36]

/-- The first eleven bytes of the documented call-end frame, zero beyond. -/
def call_end_example_cut : Frame :=
  frame_of_bytes [0x08, 0x2a, 0x00, 0x00, 0x00, 0x00, 0x00, 0x63, 0x30, 0x05, 0x54]

/-! ## Reading a run -/

/-- Whether an invocation is a call-start (`some true`), a call-end
(`some false`) or neither. -/
def call_kind : Invocation → Option Bool
  | .call_start _ => some true
  | .call_end _ => some false
  | _ => none

/-- The frame of a call-start invocation. -/
def start_frame : Invocation → Option Frame
  | .call_start pkt => some pkt
  | _ => none

/-- The call notifications in a log, in order: `true` for "started", `false` for
"ended". -/
def notification_kinds (es : List Effect) : List Bool :=
  (es.filter is_notification).map is_call_started

/-- The strict alternation started, ended, started, ... of length `n`. -/
def alternation (n : Nat) : List Bool :=
  (List.range n).map (fun k => k % 2 == 0)

/-- Whether an effect is a critical section primitive or a store to `g_dst` or
`g_src`. -/
def is_critical_or_address_store : Effect → Bool
  | .OS_ENTER_CRITICAL => true
  | .OS_EXIT_CRITICAL _ => true
  | .store .g_dst _ => true
  | .store .g_src _ => true
  | _ => false

/-- A call-end frame like the one of line 173 with other addresses: from 2 to 1. -/
def call_end_other : Frame :=
  frame_of_bytes [0x08, 0x2a, 0x00, 0x00, 0x00, 0x00, 0x00, 0x01, 0x00, 0x00, 0x02, 0x7c, 0x2c,
    0x36]

/-- The call notifications a run logs, in order. -/
def run_kinds {σ : Type} (abi : ABI) (fw : Firmware σ) (cs : List Invocation) (w : World σ) :
    List Bool :=
  notification_kinds (emitted w (run abi fw cs w))

/-- The Full LC record of the documented call-end frame with its first byte
replaced. -/
def lc_with_first_byte (x : uint8_t) : lc_t :=
  { lc_at call_end_example 2 with pf_flco := x }

/-! ## Lemmas on the address arithmetic -/

theorem or_bytes_eq (a b c : Nat) (ha : a < 256) (hb : b < 256) :
    a ||| (b <<< 8) ||| (c <<< 16) = c * 65536 + b * 256 + a := by
  have h1 : 2 ^ 8 * b + a = 2 ^ 8 * b ||| a := Nat.mul_add_lt_is_or (by omega) b
  have h2 : 2 ^ 16 * c + (2 ^ 8 * b + a) = 2 ^ 16 * c ||| (2 ^ 8 * b + a) :=
    Nat.mul_add_lt_is_or (by omega) c
  rw [Nat.shiftLeft_eq, Nat.shiftLeft_eq, Nat.lor_comm (a ||| b * 2 ^ 8), Nat.lor_comm a,
    Nat.mul_comm b, Nat.mul_comm c, ← h1, ← h2]
  omega

theorem get_adr_eq (t : adr_t) :
    get_adr t = t.b16.val * 65536 + t.b8.val * 256 + t.b0.val := by
  unfold get_adr
  rw [or_bytes_eq _ _ _ t.b0.isLt t.b8.isLt]
  have := t.b16.isLt
  have := t.b8.isLt
  have := t.b0.isLt
  omega

theorem get_adr_lt (t : adr_t) : get_adr t < 2 ^ 24 := by
  rw [get_adr_eq]
  have := t.b16.isLt
  have := t.b8.isLt
  have := t.b0.isLt
  omega

theorem int_of_bits_small (n : Nat) (h : n < 2 ^ 31) : int_of_bits n = (n : Int) := by
  unfold int_of_bits
  have h1 : n % 2 ^ 32 = n := Nat.mod_eq_of_lt (by omega)
  rw [h1, if_pos h]

theorem or_shift_bytes (a b c : uint8_t) :
    or_shift a.val b.val c.val = ((get_adr { b16 := c, b8 := b, b0 := a } : Nat) : Int) := by
  have ha := a.isLt
  have hb := b.isLt
  have hc := c.isLt
  have e1 : (b.val <<< 8) % 2 ^ 32 = b.val <<< 8 := by
    rw [Nat.shiftLeft_eq]; exact Nat.mod_eq_of_lt (by omega)
  have e2 : (c.val <<< 16) % 2 ^ 32 = c.val <<< 16 := by
    rw [Nat.shiftLeft_eq]; exact Nat.mod_eq_of_lt (by omega)
  have e3 := or_bytes_eq a.val b.val c.val ha hb
  unfold or_shift get_adr
  simp only [e1, e2]
  rw [int_of_bits_small]
  rw [e3]
  omega

theorem bits_of_char_unsigned (abi : ABI) (h : abi.char_signed = false) (c : uint8_t) :
    bits_of_char abi c = c.val := by
  simp [bits_of_char, h]

/-! ## What each hook does to the state and to the log -/

section hooks

variable {σ : Type}

/-- The source address the call hooks compute from offsets 8-10. -/
theorem hook_src_eq (pkt : Frame) :
    or_shift (bits_of_uint8 (pkt 10)) (bits_of_uint8 (pkt 9)) (bits_of_uint8 (pkt 8))
      = ((get_adr (adr_at pkt 8) : Nat) : Int) := by
  simp only [bits_of_uint8, or_shift_bytes, adr_at]

/-- The destination address the call hooks compute from offsets 5-7. -/
theorem hook_dst_eq (pkt : Frame) :
    or_shift (bits_of_uint8 (pkt 7)) (bits_of_uint8 (pkt 6)) (bits_of_uint8 (pkt 5))
      = ((get_adr (adr_at pkt 5) : Nat) : Int) := by
  simp only [bits_of_uint8, or_shift_bytes, adr_at]

theorem dumpraw_lc_eq (pkt : Frame) (w : World σ) :
    dumpraw_lc pkt w = { w with out := w.out ++ lc_dump pkt } := by
  simp [dumpraw_lc, dump_full_lc, emit, lc_dump, lc_at]

theorem call_start_incall (fw : Firmware σ) (pkt : Frame) (w : World σ) :
    (dmr_call_start_hook fw pkt w).2.incall = 1 := by
  simp [dmr_call_start_hook, call_original, emit]

theorem call_start_g_src (fw : Firmware σ) (pkt : Frame) (w : World σ) :
    (dmr_call_start_hook fw pkt w).2.g_src = ((get_adr (adr_at pkt 8) : Nat) : Int) := by
  simp only [dmr_call_start_hook, hook_src_eq, hook_dst_eq, call_original, call_firmware, emit]
  split <;> rfl

theorem call_start_g_dst (fw : Firmware σ) (pkt : Frame) (w : World σ) :
    (dmr_call_start_hook fw pkt w).2.g_dst = ((get_adr (adr_at pkt 5) : Nat) : Int) := by
  simp only [dmr_call_start_hook, hook_src_eq, hook_dst_eq, call_original, call_firmware, emit]
  split <;> rfl

theorem call_start_out (fw : Firmware σ) (pkt : Frame) (w : World σ) :
    (dmr_call_start_hook fw pkt w).2.out = w.out ++
      ([.PRINT "cs " []] ++ lc_dump pkt ++
       [.OS_ENTER_CRITICAL,
        .store .g_dst (get_adr (adr_at pkt 5) : Nat),
        .store .g_src (get_adr (adr_at pkt 8) : Nat),
        .OS_EXIT_CRITICAL (fw.OS_ENTER_CRITICAL w.fw).1] ++
       (if w.incall = 0 then
          [call_started (get_adr (adr_at pkt 8) : Nat) (get_adr (adr_at pkt 5) : Nat)]
        else []) ++
       [.store .incall 1, .dmr_call_start pkt]) := by
  simp only [dmr_call_start_hook, hook_src_eq, hook_dst_eq, call_original, call_firmware, emit,
    dumpraw_lc_eq, call_started]
  split <;> simp

theorem char_adr_unsigned (abi : ABI) (h : abi.char_signed = false) (pkt : Frame) (off : Nat) :
    char_adr abi pkt off = ((get_adr (adr_at pkt off) : Nat) : Int) := by
  simp only [char_adr, bits_of_char_unsigned abi h, or_shift_bytes, adr_at]

theorem call_end_incall (abi : ABI) (fw : Firmware σ) (pkt : Frame) (w : World σ) :
    (dmr_call_end_hook abi fw pkt w).2.incall = 0 := by
  simp [dmr_call_end_hook, call_original, emit]

theorem call_end_g_src (abi : ABI) (fw : Firmware σ) (pkt : Frame) (w : World σ) :
    (dmr_call_end_hook abi fw pkt w).2.g_src = w.g_src := by
  simp only [dmr_call_end_hook, call_original, emit, dumpraw_lc_eq]
  split <;> rfl

theorem call_end_g_dst (abi : ABI) (fw : Firmware σ) (pkt : Frame) (w : World σ) :
    (dmr_call_end_hook abi fw pkt w).2.g_dst = w.g_dst := by
  simp only [dmr_call_end_hook, call_original, emit, dumpraw_lc_eq]
  split <;> rfl

theorem call_end_out (abi : ABI) (fw : Firmware σ) (pkt : Frame) (w : World σ) :
    (dmr_call_end_hook abi fw pkt w).2.out = w.out ++
      ([.PRINT "ce " []] ++ lc_dump pkt ++
       (if w.incall ≠ 0 then [call_ended (char_adr abi pkt 8) (char_adr abi pkt 5)] else []) ++
       [.store .incall 0, .dmr_call_end pkt]) := by
  simp only [dmr_call_end_hook, call_original, emit, dumpraw_lc_eq, call_ended, char_adr]
  split <;> simp

theorem dump_raw_short_header_eq (tag : String) (h : raw_sh_hdr_t) (w : World σ) :
    dump_raw_short_header tag h w = { w with i := h.sap, out := w.out ++ sh_dump tag h } := by
  simp [dump_raw_short_header, emit, sh_dump]

theorem handle_data_out (abi : ABI) (fw : Firmware σ) (pkt : Frame) (len : Int) (w : World σ) :
    (dmr_handle_data_hook abi fw pkt len w).2.out = w.out ++
      (sh_dump "da" (raw_sh_hdr_at abi pkt 2) ++
       [.red_led 1, .printf "Data:       " [], .printhex pkt (wrap_int (len + 2)),
        .printf "\n" [],
        .dmr_handle_data pkt len]) := by
  simp [dmr_handle_data_hook, call_original, call_firmware, emit, dump_raw_short_header_eq]

theorem sms_arrive_out (abi : ABI) (fw : Firmware σ) (pkt : Frame) (w : World σ) :
    (dmr_sms_arrive_hook abi fw pkt w).2.out = w.out ++
      (sh_dump "sm" (raw_sh_hdr_at abi pkt 2) ++
       [.red_led 1, .printf "SMS header: " [], .printhex pkt 14, .printf "\n" [],
        .dmr_sms_arrive pkt]) := by
  simp [dmr_sms_arrive_hook, call_original, call_firmware, emit, dump_raw_short_header_eq]

theorem apply_squelch_out (fw : Firmware σ) (event : Nat) (mode : uint8_t) (w : World σ) :
    (dmr_apply_squelch_hook fw event mode w).2.out = w.out ++
      (if mode = 0x08 ∧ w.promtg = 1 then
        [.printf "Applying monitor mode to a public call.\n" [], .store .mode 0x09,
         .dmr_before_squelch, .md380_OSMboxPost event 0x09]
       else [.md380_OSMboxPost event mode]) := by
  unfold dmr_apply_squelch_hook
  split <;> simp [call_firmware, emit]

theorem apply_privsquelch_out (fw : Firmware σ) (event : Nat) (mode : uint8_t) (w : World σ) :
    (dmr_apply_privsquelch_hook fw event mode w).2.out = w.out ++
      (if mode = 0x08 ∧ w.promtg = 1 then
        [.printf "Applying monitor mode to a private call.\n" [], .store .mode 0x09,
         .dmr_before_squelch, .md380_OSMboxPost event 0x09]
       else [.md380_OSMboxPost event mode]) := by
  unfold dmr_apply_privsquelch_hook
  split <;> simp [call_firmware, emit]

end hooks

/-! ## Reading what a hook logged -/

theorem emitted_of_out {σ : Type} (w w1 : World σ) (es : List Effect)
    (h : w1.out = w.out ++ es) : emitted w w1 = es := by
  simp [emitted, h]

theorem filter_original_lc_dump (pkt : Frame) : (lc_dump pkt).filter is_original_call = [] := by
  simp [lc_dump, is_original_call]

theorem filter_original_sh_dump (tag : String) (h : raw_sh_hdr_t) :
    (sh_dump tag h).filter is_original_call = [] := by
  simp [sh_dump, is_original_call]

/-! ## C1: the hooks are transparent wrappers -/

/-- C1. Each of the four hook entry points calls its original handler exactly
once (and no other original handler), with the frame (and `len`) it was given,
and returns the value that call returned; the firmware state it leaves is the
one that call left. This holds for every frame, every state and every firmware,
whatever its handlers return and whatever state they keep. -/
theorem hooks_forward_to_original {σ : Type} (abi : ABI) (fw : Firmware σ) (pkt : Frame)
    (len : Int) (w : World σ) :
    (let s := fw.OS_EXIT_CRITICAL (fw.OS_ENTER_CRITICAL w.fw).1 (fw.OS_ENTER_CRITICAL w.fw).2
     let r := dmr_call_start_hook fw pkt w
     r.1 = (fw.dmr_call_start pkt s).1 ∧ r.2.fw = (fw.dmr_call_start pkt s).2 ∧
       (emitted w r.2).filter is_original_call = [.dmr_call_start pkt]) ∧
    (let r := dmr_call_end_hook abi fw pkt w
     r.1 = (fw.dmr_call_end pkt w.fw).1 ∧ r.2.fw = (fw.dmr_call_end pkt w.fw).2 ∧
       (emitted w r.2).filter is_original_call = [.dmr_call_end pkt]) ∧
    (let s := fw.red_led 1 w.fw
     let r := dmr_handle_data_hook abi fw pkt len w
     r.1 = (fw.dmr_handle_data pkt len s).1 ∧ r.2.fw = (fw.dmr_handle_data pkt len s).2 ∧
       (emitted w r.2).filter is_original_call = [.dmr_handle_data pkt len]) ∧
    (let s := fw.red_led 1 w.fw
     let r := dmr_sms_arrive_hook abi fw pkt w
     r.1 = (fw.dmr_sms_arrive pkt s).1 ∧ r.2.fw = (fw.dmr_sms_arrive pkt s).2 ∧
       (emitted w r.2).filter is_original_call = [.dmr_sms_arrive pkt]) := by
  refine ⟨⟨?_, ?_, ?_⟩, ⟨?_, ?_, ?_⟩, ⟨?_, ?_, ?_⟩, ⟨?_, ?_, ?_⟩⟩
  · simp only [dmr_call_start_hook, call_original, call_firmware, emit]
    split <;> rfl
  · simp only [dmr_call_start_hook, call_original, call_firmware, emit]
    split <;> rfl
  · rw [emitted_of_out _ _ _ (call_start_out fw pkt w)]
    simp only [List.filter_append, filter_original_lc_dump]
    split <;> simp [is_original_call, call_started]
  · simp only [dmr_call_end_hook, call_original, emit, dumpraw_lc_eq]
    split <;> rfl
  · simp only [dmr_call_end_hook, call_original, emit, dumpraw_lc_eq]
    split <;> rfl
  · rw [emitted_of_out _ _ _ (call_end_out abi fw pkt w)]
    simp only [List.filter_append, filter_original_lc_dump]
    split <;> simp [is_original_call, call_ended]
  · simp [dmr_handle_data_hook, call_original, call_firmware, emit, dump_raw_short_header_eq]
  · simp [dmr_handle_data_hook, call_original, call_firmware, emit, dump_raw_short_header_eq]
  · rw [emitted_of_out _ _ _ (handle_data_out abi fw pkt len w)]
    simp [List.filter_append, filter_original_sh_dump, is_original_call]
  · simp [dmr_sms_arrive_hook, call_original, call_firmware, emit, dump_raw_short_header_eq]
  · simp [dmr_sms_arrive_hook, call_original, call_firmware, emit, dump_raw_short_header_eq]
  · rw [emitted_of_out _ _ _ (sms_arrive_out abi fw pkt w)]
    simp [List.filter_append, filter_original_sh_dump, is_original_call]

/-! ## Runs: the log only grows -/

section runs

variable {σ : Type}

theorem run_nil (abi : ABI) (fw : Firmware σ) (w : World σ) : run abi fw [] w = w := rfl

theorem run_cons (abi : ABI) (fw : Firmware σ) (c : Invocation) (cs : List Invocation)
    (w : World σ) : run abi fw (c :: cs) w = run abi fw cs (invoke abi fw c w) := rfl

theorem invoke_out (abi : ABI) (fw : Firmware σ) (c : Invocation) (w : World σ) :
    ∃ es, (invoke abi fw c w).out = w.out ++ es := by
  cases c with
  | call_start pkt => exact ⟨_, call_start_out fw pkt w⟩
  | call_end pkt => exact ⟨_, call_end_out abi fw pkt w⟩
  | handle_data pkt len => exact ⟨_, handle_data_out abi fw pkt len w⟩
  | sms_arrive pkt => exact ⟨_, sms_arrive_out abi fw pkt w⟩
  | apply_squelch event mode => exact ⟨_, apply_squelch_out fw event mode w⟩
  | apply_privsquelch event mode => exact ⟨_, apply_privsquelch_out fw event mode w⟩

theorem run_out (abi : ABI) (fw : Firmware σ) (cs : List Invocation) (w : World σ) :
    ∃ es, (run abi fw cs w).out = w.out ++ es := by
  induction cs generalizing w with
  | nil => exact ⟨[], by simp [run_nil]⟩
  | cons c cs ih =>
    obtain ⟨e1, h1⟩ := invoke_out abi fw c w
    obtain ⟨e2, h2⟩ := ih (invoke abi fw c w)
    exact ⟨e1 ++ e2, by rw [run_cons, h2, h1, List.append_assoc]⟩

theorem emitted_self (w : World σ) : emitted w w = [] := by
  simp [emitted]

theorem emitted_trans (w w1 w2 : World σ) (h1 : ∃ es, w1.out = w.out ++ es)
    (h2 : ∃ es, w2.out = w1.out ++ es) :
    emitted w w2 = emitted w w1 ++ emitted w1 w2 := by
  obtain ⟨e1, h1⟩ := h1
  obtain ⟨e2, h2⟩ := h2
  simp [emitted, h1, h2]

theorem emitted_run_cons (abi : ABI) (fw : Firmware σ) (c : Invocation) (cs : List Invocation)
    (w : World σ) :
    emitted w (run abi fw (c :: cs) w) =
      emitted w (invoke abi fw c w) ++
        emitted (invoke abi fw c w) (run abi fw cs (invoke abi fw c w)) := by
  rw [run_cons]
  exact emitted_trans _ _ _ (invoke_out abi fw c w) (run_out abi fw cs _)

/-! ## Notifications of the two call hooks -/

theorem filter_notification_lc_dump (pkt : Frame) :
    (lc_dump pkt).filter is_notification = [] := by
  simp [lc_dump, is_notification, is_call_started, is_call_ended]

theorem call_start_notifications (abi : ABI) (fw : Firmware σ) (pkt : Frame) (w : World σ) :
    (emitted w (invoke abi fw (.call_start pkt) w)).filter is_notification =
      if w.incall = 0 then
        [call_started (get_adr (adr_at pkt 8) : Nat) (get_adr (adr_at pkt 5) : Nat)]
      else [] := by
  show (emitted w (dmr_call_start_hook fw pkt w).2).filter is_notification = _
  rw [emitted_of_out _ _ _ (call_start_out fw pkt w)]
  simp only [List.filter_append, filter_notification_lc_dump]
  split <;> simp [is_notification, is_call_started, is_call_ended, call_started]

theorem call_end_notifications (abi : ABI) (fw : Firmware σ) (pkt : Frame) (w : World σ) :
    (emitted w (invoke abi fw (.call_end pkt) w)).filter is_notification =
      if w.incall ≠ 0 then [call_ended (char_adr abi pkt 8) (char_adr abi pkt 5)] else [] := by
  show (emitted w (dmr_call_end_hook abi fw pkt w).2).filter is_notification = _
  rw [emitted_of_out _ _ _ (call_end_out abi fw pkt w)]
  simp only [List.filter_append, filter_notification_lc_dump]
  split <;> simp [is_notification, is_call_started, is_call_ended, call_ended]

theorem starts_while_in_call (abi : ABI) (fw : Firmware σ) (pkts : List Frame) (w : World σ)
    (h : w.incall ≠ 0) :
    (emitted w (run abi fw (pkts.map .call_start) w)).filter is_notification = [] ∧
      (run abi fw (pkts.map .call_start) w).incall ≠ 0 := by
  induction pkts generalizing w with
  | nil => simp [run_nil, emitted_self, h]
  | cons p ps ih =>
    have h1 : (invoke abi fw (.call_start p) w).incall ≠ 0 := by
      simp [invoke, call_start_incall]
    have h2 := ih (invoke abi fw (.call_start p) w) h1
    rw [List.map_cons, emitted_run_cons, List.filter_append, call_start_notifications, if_neg h,
      run_cons]
    exact ⟨by simpa using h2.1, h2.2⟩

theorem ends_while_idle (abi : ABI) (fw : Firmware σ) (pkts : List Frame) (w : World σ)
    (h : w.incall = 0) :
    (emitted w (run abi fw (pkts.map .call_end) w)).filter is_notification = [] ∧
      (run abi fw (pkts.map .call_end) w).incall = 0 := by
  induction pkts generalizing w with
  | nil => simp [run_nil, emitted_self, h]
  | cons p ps ih =>
    have h1 : (invoke abi fw (.call_end p) w).incall = 0 := by
      simp [invoke, call_end_incall]
    have h2 := ih (invoke abi fw (.call_end p) w) h1
    rw [List.map_cons, emitted_run_cons, List.filter_append, call_end_notifications,
      if_neg (by simp [h]), run_cons]
    exact ⟨by simpa using h2.1, h2.2⟩

theorem ends_keep_addresses (abi : ABI) (fw : Firmware σ) (pkts : List Frame) (w : World σ) :
    (run abi fw (pkts.map .call_end) w).g_src = w.g_src ∧
      (run abi fw (pkts.map .call_end) w).g_dst = w.g_dst := by
  induction pkts generalizing w with
  | nil => simp [run_nil]
  | cons p ps ih =>
    have h2 := ih (invoke abi fw (.call_end p) w)
    rw [List.map_cons, run_cons]
    simpa [invoke, call_end_g_src, call_end_g_dst] using h2

end runs

theorem starts_incall {σ : Type} (abi : ABI) (fw : Firmware σ) (p : Frame) (ps : List Frame)
    (w : World σ) : (run abi fw ((p :: ps).map .call_start) w).incall = 1 := by
  induction ps generalizing p w with
  | nil => simp [run, invoke, call_start_incall]
  | cons q qs ih =>
    rw [List.map_cons, run_cons]
    exact ih q _

/-! ## C2: repeated call-start frames give one notification -/

/-- C2. From the Idle state (`incall = 0`), for every `n ≥ 1` and every sequence
of `n` call-start frames delivered to `dmr_call_start_hook`, the notifications
logged by the whole run are exactly one "Call from SRC to DST started.", the one
the first invocation logs (with the addresses of the first frame), and the run
ends with `incall = 1`. -/
theorem call_start_repeats_notify_once {σ : Type} (abi : ABI) (fw : Firmware σ) (n : Nat)
    (pkts : List Frame) (w : World σ) (hidle : w.incall = 0) (hn : 1 ≤ n)
    (hlen : pkts.length = n) :
    ∃ p, pkts.head? = some p ∧
      (emitted w (run abi fw (pkts.map .call_start) w)).filter is_notification =
        [call_started (get_adr (adr_at p 8) : Nat) (get_adr (adr_at p 5) : Nat)] ∧
      (emitted w (invoke abi fw (.call_start p) w)).filter is_notification =
        [call_started (get_adr (adr_at p 8) : Nat) (get_adr (adr_at p 5) : Nat)] ∧
      (run abi fw (pkts.map .call_start) w).incall = 1 := by
  cases pkts with
  | nil => simp at hlen; omega
  | cons p ps =>
    refine ⟨p, rfl, ?_, ?_, starts_incall abi fw p ps w⟩
    · have h1 : (invoke abi fw (.call_start p) w).incall ≠ 0 := by
        simp [invoke, call_start_incall]
      have h2 := (starts_while_in_call abi fw ps _ h1).1
      rw [List.map_cons, emitted_run_cons, List.filter_append, call_start_notifications,
        if_pos hidle, h2]
      rfl
    · rw [call_start_notifications, if_pos hidle]

/-- C2, three repeats of the documented call-start frame from the state at
system start: one notification, from 3147092 to 99. -/
theorem call_start_repeats_notify_once_witness :
    (World.init 0 ()).incall = 0 ∧ 1 ≤ 3 ∧
    [call_start_example, call_start_example, call_start_example].length = 3 ∧
    ∃ p, [call_start_example, call_start_example, call_start_example].head? = some p ∧
      (emitted (World.init 0 ()) (run arm_eabi (stub_firmware 0)
        ([call_start_example, call_start_example, call_start_example].map .call_start)
        (World.init 0 ()))).filter is_notification =
        [call_started (get_adr (adr_at p 8) : Nat) (get_adr (adr_at p 5) : Nat)] ∧
      (emitted (World.init 0 ()) (invoke arm_eabi (stub_firmware 0) (.call_start p)
        (World.init 0 ()))).filter is_notification =
        [call_started (get_adr (adr_at p 8) : Nat) (get_adr (adr_at p 5) : Nat)] ∧
      (run arm_eabi (stub_firmware 0)
        ([call_start_example, call_start_example, call_start_example].map .call_start)
        (World.init 0 ())).incall = 1 :=
  ⟨rfl, by decide, rfl,
    call_start_repeats_notify_once arm_eabi (stub_firmware 0) 3
      [call_start_example, call_start_example, call_start_example] (World.init 0 ()) rfl
      (by decide) rfl⟩

/-! ## C3: a call-start frame during a call -/

/-- C3, as stated, fails: after the documented call from 3147092 to 99 has
started, a call-start frame from 2 to 1 leaves `incall = 1` but replaces `g_src`
and `g_dst`. -/
theorem call_start_in_call_changes_addresses :
    let w := (dmr_call_start_hook (stub_firmware 0) call_start_example (World.init 0 ())).2
    let w1 := (dmr_call_start_hook (stub_firmware 0) call_start_other w).2
    w.incall = 1 ∧ (w.g_src, w.g_dst) = (3147092, 99) ∧ (w1.g_src, w1.g_dst) = (2, 1) ∧
      ¬ (w1.incall = w.incall ∧ w1.g_src = w.g_src ∧ w1.g_dst = w.g_dst) := by
  decide

/-- C3, amended. In a call (`incall` not 0), `dmr_call_start_hook` logs no
notification and leaves `incall = 1`, but it always stores the addresses of the
frame in `g_src` and `g_dst` (lines 250-253); so the triple is unchanged exactly
when the frame carries the addresses already stored. -/
theorem call_start_in_call {σ : Type} (fw : Firmware σ) (pkt : Frame) (w : World σ)
    (hin : w.incall ≠ 0) :
    let w1 := (dmr_call_start_hook fw pkt w).2
    (emitted w w1).filter is_notification = [] ∧
      w1.incall = 1 ∧
      w1.g_src = ((get_adr (adr_at pkt 8) : Nat) : Int) ∧
      w1.g_dst = ((get_adr (adr_at pkt 5) : Nat) : Int) ∧
      ((w1.g_src = w.g_src ∧ w1.g_dst = w.g_dst) ↔
        (w.g_src = ((get_adr (adr_at pkt 8) : Nat) : Int) ∧
         w.g_dst = ((get_adr (adr_at pkt 5) : Nat) : Int))) := by
  have h := call_start_notifications arm_eabi fw pkt w
  rw [if_neg hin] at h
  refine ⟨h, call_start_incall fw pkt w, call_start_g_src fw pkt w, call_start_g_dst fw pkt w, ?_⟩
  rw [call_start_g_src, call_start_g_dst]
  constructor
  · rintro ⟨h1, h2⟩
    exact ⟨h1.symm, h2.symm⟩
  · rintro ⟨h1, h2⟩
    exact ⟨h1.symm, h2.symm⟩

/-- C3 amended, at the state after the documented call has started and a
call-start frame from 2 to 1. -/
theorem call_start_in_call_witness :
    (dmr_call_start_hook (stub_firmware 0) call_start_example (World.init 0 ())).2.incall ≠ 0 ∧
    (let w1 := (dmr_call_start_hook (stub_firmware 0) call_start_other
        (dmr_call_start_hook (stub_firmware 0) call_start_example (World.init 0 ())).2).2
     w1.incall = 1 ∧ w1.g_src = 2 ∧ w1.g_dst = 1) :=
  have h := call_start_in_call (stub_firmware 0) call_start_other
    (dmr_call_start_hook (stub_firmware 0) call_start_example (World.init 0 ())).2 (by decide)
  ⟨by decide, h.2.1, h.2.2.1, h.2.2.2.1⟩

/-! ## C4: call-end frames -/

/-- C4. For every state and every call-end frame, `dmr_call_end_hook` logs
exactly one "call ended" notification when `incall` is not 0 and none when it is
0, always leaves `incall = 0`, and never touches `g_src` or `g_dst` (so in Idle
the whole triple is unchanged). Consequently, after one call-start frame, any
`n ≥ 1` call-end frames log exactly one "call ended" notification, the one of
the first of them, and end with `incall = 0`. -/
theorem call_end_idempotent {σ : Type} (abi : ABI) (fw : Firmware σ) (pkt : Frame)
    (w : World σ) :
    (let w1 := (dmr_call_end_hook abi fw pkt w).2
     (emitted w w1).filter is_notification =
        (if w.incall ≠ 0 then [call_ended (char_adr abi pkt 8) (char_adr abi pkt 5)] else []) ∧
      w1.incall = 0 ∧ w1.g_src = w.g_src ∧ w1.g_dst = w.g_dst) ∧
    (∀ (start : Frame) (rest : List Frame),
      let ws := invoke abi fw (.call_start start) w
      let wn := run abi fw ((pkt :: rest).map .call_end) ws
      (emitted ws wn).filter is_notification =
        [call_ended (char_adr abi pkt 8) (char_adr abi pkt 5)] ∧
      (emitted ws (invoke abi fw (.call_end pkt) ws)).filter is_notification =
        [call_ended (char_adr abi pkt 8) (char_adr abi pkt 5)] ∧
      wn.incall = 0) := by
  refine ⟨⟨call_end_notifications abi fw pkt w, call_end_incall abi fw pkt w,
    call_end_g_src abi fw pkt w, call_end_g_dst abi fw pkt w⟩, ?_⟩
  intro start rest
  have hs : (invoke abi fw (.call_start start) w).incall ≠ 0 := by
    simp [invoke, call_start_incall]
  have h1 : (invoke abi fw (.call_end pkt) (invoke abi fw (.call_start start) w)).incall = 0 := by
    simp [invoke, call_end_incall]
  have h2 := ends_while_idle abi fw rest _ h1
  refine ⟨?_, ?_, ?_⟩
  · rw [List.map_cons, emitted_run_cons, List.filter_append, call_end_notifications, if_pos hs,
      h2.1]
    rfl
  · rw [call_end_notifications, if_pos hs]
  · rw [List.map_cons, run_cons]
    exact h2.2

/-- C4, one start followed by three call-end frames (the documented frame, from
3147092 to 99): one "call ended" notification and Idle at the end. -/
theorem call_end_idempotent_witness :
    (emitted (invoke arm_eabi (stub_firmware 0) (.call_start call_start_example)
        (World.init 0 ()))
      (run arm_eabi (stub_firmware 0)
        ([call_end_example, call_end_example, call_end_example].map .call_end)
        (invoke arm_eabi (stub_firmware 0) (.call_start call_start_example)
          (World.init 0 ())))).filter is_notification =
      [call_ended (char_adr arm_eabi call_end_example 8) (char_adr arm_eabi call_end_example 5)] ∧
    (run arm_eabi (stub_firmware 0)
        ([call_end_example, call_end_example, call_end_example].map .call_end)
        (invoke arm_eabi (stub_firmware 0) (.call_start call_start_example)
          (World.init 0 ()))).incall = 0 ∧
    char_adr arm_eabi call_end_example 8 = 3147092 ∧
    char_adr arm_eabi call_end_example 5 = 99 :=
  have h := (call_end_idempotent arm_eabi (stub_firmware 0) call_end_example
    (World.init 0 ())).2 call_start_example [call_end_example, call_end_example]
  ⟨h.1, h.2.2, by decide, by decide⟩

/-! ## The encoder and `get_adr` are inverse -/

theorem val_ofNat_byte (x : Nat) : ((Fin.ofNat x : uint8_t)).val = x % 256 := rfl

theorem and_0xff (x : Nat) : x &&& 0xff = x % 256 :=
  Nat.and_pow_two_sub_one_eq_mod x 8

theorem get_adr_encode_adr (a : Nat) (h : a < 2 ^ 24) : get_adr (encode_adr a) = a := by
  rw [get_adr_eq]
  simp only [encode_adr, val_ofNat_byte, and_0xff, Nat.shiftRight_eq_div_pow]
  omega

theorem encode_adr_get_adr (t : adr_t) : encode_adr (get_adr t) = t := by
  have h16 := t.b16.isLt
  have h8 := t.b8.isLt
  have h0 := t.b0.isLt
  cases t with
  | mk b16 b8 b0 =>
    simp only [encode_adr, get_adr_eq, and_0xff, Nat.shiftRight_eq_div_pow, adr_t.mk.injEq]
    refine ⟨?_, ?_, ?_⟩ <;> apply Fin.ext <;> simp only [val_ofNat_byte] <;> omega

theorem frame_of_carries (s d : Nat) (hs : s < 2 ^ 24) (hd : d < 2 ^ 24) :
    carries (frame_of s d) s d := by
  constructor
  · rw [get_adr_eq]
    simp only [adr_at, frame_of]
    simp only [show (8 : Nat) ≠ 5 by decide, show (8 : Nat) ≠ 6 by decide,
      show (8 : Nat) ≠ 7 by decide, show (8 + 1 : Nat) = 9 by rfl,
      show (8 + 2 : Nat) = 10 by rfl, show (9 : Nat) ≠ 5 by decide,
      show (9 : Nat) ≠ 6 by decide, show (9 : Nat) ≠ 7 by decide,
      show (9 : Nat) ≠ 8 by decide, show (10 : Nat) ≠ 5 by decide,
      show (10 : Nat) ≠ 6 by decide, show (10 : Nat) ≠ 7 by decide,
      show (10 : Nat) ≠ 8 by decide, show (10 : Nat) ≠ 9 by decide, if_true, if_false,
      val_ofNat_byte]
    omega
  · rw [get_adr_eq]
    simp only [adr_at, frame_of]
    simp only [show (5 + 1 : Nat) = 6 by rfl, show (5 + 2 : Nat) = 7 by rfl,
      show (6 : Nat) ≠ 5 by decide, show (7 : Nat) ≠ 5 by decide,
      show (7 : Nat) ≠ 6 by decide, if_true, if_false, val_ofNat_byte]
    omega

/-! ## C5: the start, start, end, end scenario -/

/-- C5. On the radio (plain `char` unsigned), for every pair of 24 bit addresses
`s`, `d` there are frames carrying them, and for all frames carrying them the
sequence Start, Start, End, End run from the state at system start logs exactly
the notifications "call started" then "call ended", both reporting `s` and `d`,
and ends Idle (`incall = 0`) with `g_src = s` and `g_dst = d`. -/
theorem start_start_end_end {σ : Type} (abi : ABI) (hchar : abi.char_signed = false)
    (fw : Firmware σ) (promtg : uint8_t) (s0 : σ) (s d : Nat) (hs : s < 2 ^ 24)
    (hd : d < 2 ^ 24) :
    carries (frame_of s d) s d ∧
    ∀ p1 p2 p3 p4 : Frame, carries p1 s d → carries p2 s d → carries p3 s d → carries p4 s d →
      let wn := run abi fw [.call_start p1, .call_start p2, .call_end p3, .call_end p4]
        (World.init promtg s0)
      wn.out.filter is_notification = [call_started s d, call_ended s d] ∧
        wn.incall = 0 ∧ wn.g_src = s ∧ wn.g_dst = d := by
  refine ⟨frame_of_carries s d hs hd, ?_⟩
  intro p1 p2 p3 p4 c1 c2 c3 c4
  have hout : ∀ w1 : World σ, w1.out = emitted (World.init promtg s0) w1 := by
    intro w1
    simp [emitted, World.init]
  refine ⟨?_, ?_, ?_, ?_⟩
  · rw [hout, emitted_run_cons, emitted_run_cons, emitted_run_cons, emitted_run_cons, run_nil,
      emitted_self]
    simp only [List.filter_append, call_start_notifications, call_end_notifications]
    simp only [invoke, call_start_incall, call_end_incall, World.init,
      char_adr_unsigned abi hchar, c1.1, c1.2, c3.1, c3.2]
    simp
  · simp [run, invoke, call_end_incall]
  · simp only [run, List.foldl, invoke, call_end_g_src, call_start_g_src, c2.1]
  · simp only [run, List.foldl, invoke, call_end_g_dst, call_start_g_dst, c2.2]

/-- C5 at `s = 100`, `d = 200`, on the radio ABI. -/
theorem start_start_end_end_witness :
    arm_eabi.char_signed = false ∧ 100 < 2 ^ 24 ∧ 200 < 2 ^ 24 ∧
    carries (frame_of 100 200) 100 200 ∧
    (let wn := run arm_eabi (stub_firmware 0)
        [.call_start (frame_of 100 200), .call_start (frame_of 100 200),
         .call_end (frame_of 100 200), .call_end (frame_of 100 200)] (World.init 0 ());
     wn.out.filter is_notification = [call_started 100 200, call_ended 100 200] ∧
        wn.incall = 0 ∧ wn.g_src = 100 ∧ wn.g_dst = 200) :=
  have h := start_start_end_end arm_eabi rfl (stub_firmware 0) 0 () 100 200 (by decide)
    (by decide)
  ⟨rfl, by decide, by decide, h.1,
    h.2 (frame_of 100 200) (frame_of 100 200) (frame_of 100 200) (frame_of 100 200) h.1 h.1 h.1
      h.1⟩

/-! ## C6-C8: the squelch hooks -/

/-- C6. For every mode byte and every value of the monitor byte
`global_addl_config.promtg`, `dmr_apply_squelch_hook` stores 0x09 into `*mode`
if and only if `*mode` is 0x08 and the monitor flag is on (`promtg == 1`);
otherwise `*mode` keeps its value. `md380_OSMboxPost` is called once, with the
event given and the resulting mode byte: the log says so, and the firmware
state the hook leaves is the one `md380_OSMboxPost event` leaves when handed
that byte (after `dmr_before_squelch` when the byte was rewritten, on the state
the hook found otherwise). -/
theorem squelch_forces_unmute_iff {σ : Type} (fw : Firmware σ) (event : Nat) (mode : uint8_t)
    (w : World σ) :
    let r := dmr_apply_squelch_hook fw event mode w
    (Effect.store .mode 0x09 ∈ emitted w r.2 ↔ (mode = 0x08 ∧ w.promtg = 1)) ∧
      r.1 = (if mode = 0x08 ∧ w.promtg = 1 then 0x09 else mode) ∧
      (emitted w r.2).filter is_mbox_post = [.md380_OSMboxPost event r.1] ∧
      r.2.fw = fw.md380_OSMboxPost event r.1
        (if mode = 0x08 ∧ w.promtg = 1 then fw.dmr_before_squelch w.fw else w.fw) ∧
      r.2.promtg = w.promtg := by
  have hout := emitted_of_out w _ _ (apply_squelch_out fw event mode w)
  by_cases h : mode = 0x08 ∧ w.promtg = 1
  · rw [if_pos h] at hout
    refine ⟨?_, ?_, ?_, ?_, ?_⟩
    · simp only [hout]
      simp [h]
    · simp only [dmr_apply_squelch_hook, if_pos h]
    · simp only [hout]
      simp [is_mbox_post, dmr_apply_squelch_hook, if_pos h]
    · simp [dmr_apply_squelch_hook, if_pos h, call_firmware, emit]
    · simp [dmr_apply_squelch_hook, if_pos h, call_firmware, emit]
  · rw [if_neg h] at hout
    refine ⟨?_, ?_, ?_, ?_, ?_⟩
    · simp only [hout]
      simp [h]
    · simp only [dmr_apply_squelch_hook, if_neg h]
    · simp only [hout]
      simp [is_mbox_post, dmr_apply_squelch_hook, if_neg h]
    · simp [dmr_apply_squelch_hook, if_neg h, call_firmware]
    · simp [dmr_apply_squelch_hook, if_neg h, call_firmware]

/-- C6 at the three documented inputs: muted with the monitor flag on gives
0x09, unmuted with the flag on stays 0x09, muted with the flag off stays 0x08;
and in each case the recording firmware has received that byte in
`md380_OSMboxPost`. -/
theorem squelch_forces_unmute_iff_witness :
    (dmr_apply_squelch_hook (stub_firmware 0) 0 0x08 (World.init 1 ())).1 = 0x09 ∧
    (dmr_apply_squelch_hook (stub_firmware 0) 0 0x09 (World.init 1 ())).1 = 0x09 ∧
    (dmr_apply_squelch_hook (stub_firmware 0) 0 0x08 (World.init 0 ())).1 = 0x08 ∧
    (dmr_apply_squelch_hook trace_firmware 0 0x08 (World.init 1 [])).2.fw =
      [("dmr_before_squelch", 0), ("md380_OSMboxPost", 9)] ∧
    (dmr_apply_squelch_hook trace_firmware 0 0x09 (World.init 1 [])).2.fw =
      [("md380_OSMboxPost", 9)] ∧
    (dmr_apply_squelch_hook trace_firmware 0 0x08 (World.init 0 [])).2.fw =
      [("md380_OSMboxPost", 8)] :=
  ⟨(squelch_forces_unmute_iff (stub_firmware 0) 0 0x08 (World.init 1 ())).2.1,
   (squelch_forces_unmute_iff (stub_firmware 0) 0 0x09 (World.init 1 ())).2.1,
   (squelch_forces_unmute_iff (stub_firmware 0) 0 0x08 (World.init 0 ())).2.1,
   (squelch_forces_unmute_iff trace_firmware 0 0x08 (World.init 1 [])).2.2.2.1,
   (squelch_forces_unmute_iff trace_firmware 0 0x09 (World.init 1 [])).2.2.2.1,
   (squelch_forces_unmute_iff trace_firmware 0 0x08 (World.init 0 [])).2.2.2.1⟩

/-- C7. In both squelch hooks, when the mode byte is 0x08 and the monitor flag
is on, the hook logs its message, stores 0x09 into `*mode`, calls
`dmr_before_squelch` exactly once and only then forwards the overridden byte to
`md380_OSMboxPost`; otherwise `dmr_before_squelch` is not called and
`md380_OSMboxPost` is still called exactly once, with the byte unchanged. This
holds of the log and of the firmware itself: the state the hook leaves is
`md380_OSMboxPost event 0x09` applied to the state `dmr_before_squelch` left,
or `md380_OSMboxPost event mode` applied to the state the hook found. -/
theorem before_squelch_precedes_post {σ : Type} (fw : Firmware σ) (event : Nat)
    (mode : uint8_t) (w : World σ) :
    let a := dmr_apply_squelch_hook fw event mode w
    let b := dmr_apply_privsquelch_hook fw event mode w
    emitted w a.2 =
        (if mode = 0x08 ∧ w.promtg = 1 then
          [monitor_public, .store .mode 0x09, .dmr_before_squelch, .md380_OSMboxPost event 0x09]
         else [.md380_OSMboxPost event mode]) ∧
      emitted w b.2 =
        (if mode = 0x08 ∧ w.promtg = 1 then
          [monitor_private, .store .mode 0x09, .dmr_before_squelch, .md380_OSMboxPost event 0x09]
         else [.md380_OSMboxPost event mode]) ∧
      (emitted w a.2).filter is_squelch_call =
        (if mode = 0x08 ∧ w.promtg = 1 then [.dmr_before_squelch, .md380_OSMboxPost event 0x09]
         else [.md380_OSMboxPost event mode]) ∧
      (emitted w b.2).filter is_squelch_call =
        (if mode = 0x08 ∧ w.promtg = 1 then [.dmr_before_squelch, .md380_OSMboxPost event 0x09]
         else [.md380_OSMboxPost event mode]) ∧
      a.2.fw =
        (if mode = 0x08 ∧ w.promtg = 1 then
          fw.md380_OSMboxPost event 0x09 (fw.dmr_before_squelch w.fw)
         else fw.md380_OSMboxPost event mode w.fw) ∧
      b.2.fw =
        (if mode = 0x08 ∧ w.promtg = 1 then
          fw.md380_OSMboxPost event 0x09 (fw.dmr_before_squelch w.fw)
         else fw.md380_OSMboxPost event mode w.fw) := by
  have ha := emitted_of_out w _ _ (apply_squelch_out fw event mode w)
  have hb := emitted_of_out w _ _ (apply_privsquelch_out fw event mode w)
  refine ⟨ha, hb, ?_, ?_, ?_, ?_⟩
  · simp only [ha]
    split <;> simp [is_squelch_call]
  · simp only [hb]
    split <;> simp [is_squelch_call]
  · by_cases h : mode = 0x08 ∧ w.promtg = 1
    · simp [dmr_apply_squelch_hook, if_pos h, call_firmware, emit]
    · simp [dmr_apply_squelch_hook, if_neg h, call_firmware]
  · by_cases h : mode = 0x08 ∧ w.promtg = 1
    · simp [dmr_apply_privsquelch_hook, if_pos h, call_firmware, emit]
    · simp [dmr_apply_privsquelch_hook, if_neg h, call_firmware]

/-- C7 on the recording firmware, for both hooks: with the byte 0x08 and the
monitor flag on it has received `dmr_before_squelch` and then `md380_OSMboxPost`
with 0x09; with the flag off it has received `md380_OSMboxPost` with 0x08
alone. -/
theorem before_squelch_precedes_post_witness :
    (dmr_apply_squelch_hook trace_firmware 0 0x08 (World.init 1 [])).2.fw =
      [("dmr_before_squelch", 0), ("md380_OSMboxPost", 9)] ∧
    (dmr_apply_privsquelch_hook trace_firmware 0 0x08 (World.init 1 [])).2.fw =
      [("dmr_before_squelch", 0), ("md380_OSMboxPost", 9)] ∧
    (dmr_apply_squelch_hook trace_firmware 0 0x08 (World.init 0 [])).2.fw =
      [("md380_OSMboxPost", 8)] ∧
    (dmr_apply_privsquelch_hook trace_firmware 0 0x08 (World.init 0 [])).2.fw =
      [("md380_OSMboxPost", 8)] :=
  ⟨(before_squelch_precedes_post trace_firmware 0 0x08 (World.init 1 [])).2.2.2.2.1,
   (before_squelch_precedes_post trace_firmware 0 0x08 (World.init 1 [])).2.2.2.2.2,
   (before_squelch_precedes_post trace_firmware 0 0x08 (World.init 0 [])).2.2.2.2.1,
   (before_squelch_precedes_post trace_firmware 0 0x08 (World.init 0 [])).2.2.2.2.2⟩

/-- C8. The call class is not a decision input: for every event, mode byte and
state, `dmr_apply_squelch_hook` and `dmr_apply_privsquelch_hook` return the
same mode byte, leave the same state (the log apart), make the same firmware
calls and stores in the same order, and their logs differ only in the wording
of the monitor message. -/
theorem squelch_hooks_agree {σ : Type} (fw : Firmware σ) (event : Nat) (mode : uint8_t)
    (w : World σ) :
    let a := dmr_apply_squelch_hook fw event mode w
    let b := dmr_apply_privsquelch_hook fw event mode w
    a.1 = b.1 ∧
      { a.2 with out := [] } = { b.2 with out := [] } ∧
      (emitted w a.2).filter is_squelch_call = (emitted w b.2).filter is_squelch_call ∧
      (emitted w a.2).filter (fun e => !is_message e) =
        (emitted w b.2).filter (fun e => !is_message e) ∧
      emitted w b.2 = (emitted w a.2).map reword_private ∧
      (emitted w a.2).filter is_message =
        (if mode = 0x08 ∧ w.promtg = 1 then [monitor_public] else []) ∧
      (emitted w b.2).filter is_message =
        (if mode = 0x08 ∧ w.promtg = 1 then [monitor_private] else []) := by
  have ha := emitted_of_out w _ _ (apply_squelch_out fw event mode w)
  have hb := emitted_of_out w _ _ (apply_privsquelch_out fw event mode w)
  simp only [ha, hb]
  by_cases h : mode = 0x08 ∧ w.promtg = 1
  · simp [dmr_apply_squelch_hook, dmr_apply_privsquelch_hook, h, call_firmware, emit,
      is_squelch_call, is_message, reword_private, monitor_public, monitor_private]
  · simp [dmr_apply_squelch_hook, dmr_apply_privsquelch_hook, h, call_firmware,
      is_squelch_call, is_message, reword_private]

/-! ## C9, C10: the address codec -/

/-- C9. Address round trip: `get_adr (encode a) = a` for every `a` below `2^24`,
and `encode (get_adr t) = t` for every byte triple `t`, where `encode` is the
byte triple `a >> 16`, `(a >> 8) & 0xff`, `a & 0xff`. -/
theorem adr_round_trip :
    (∀ a : Nat, a < 2 ^ 24 → get_adr (encode_adr a) = a) ∧
      (∀ t : adr_t, encode_adr (get_adr t) = t) :=
  ⟨get_adr_encode_adr, encode_adr_get_adr⟩

/-- C9 at the address 3147092 of the documented frames. -/
theorem adr_round_trip_witness :
    3147092 < 2 ^ 24 ∧ get_adr (encode_adr 3147092) = 3147092 ∧
      encode_adr 3147092 = { b16 := 0x30, b8 := 0x05, b0 := 0x54 } :=
  ⟨by decide, adr_round_trip.1 3147092 (by decide), by decide⟩

/-- C10. For every byte triple, `get_adr` returns
`b_lo | (b_mid << 8) | (b_hi << 16)` (the conversion to `uint32_t` changes
nothing), which is `b_hi * 65536 + b_mid * 256 + b_lo` and is below `2^24`. -/
theorem get_adr_value (b_hi b_mid b_lo : uint8_t) :
    get_adr { b16 := b_hi, b8 := b_mid, b0 := b_lo } =
        (b_lo.val ||| (b_mid.val <<< 8) ||| (b_hi.val <<< 16)) ∧
      get_adr { b16 := b_hi, b8 := b_mid, b0 := b_lo } =
        b_hi.val * 65536 + b_mid.val * 256 + b_lo.val ∧
      get_adr { b16 := b_hi, b8 := b_mid, b0 := b_lo } < 2 ^ 24 := by
  refine ⟨?_, get_adr_eq _, get_adr_lt _⟩
  rw [get_adr_eq, or_bytes_eq _ _ _ b_lo.isLt b_mid.isLt]

/-! ## C11, C12, C16: what the call hooks decode -/

theorem get_adr_adr_at (pkt : Frame) (off : Nat) : get_adr (adr_at pkt off) = triplet pkt off := by
  rw [get_adr_eq]
  rfl

theorem triplet_lt (pkt : Frame) (off : Nat) : triplet pkt off < 2 ^ 24 := by
  rw [← get_adr_adr_at]
  exact get_adr_lt _

theorem filter_address_store_lc_dump (pkt : Frame) :
    (lc_dump pkt).filter is_address_store = [] := by
  simp [lc_dump, is_address_store]

theorem call_start_address_stores {σ : Type} (fw : Firmware σ) (pkt : Frame) (w : World σ) :
    (emitted w (dmr_call_start_hook fw pkt w).2).filter is_address_store =
      [.store .g_dst (get_adr (adr_at pkt 5) : Nat), .store .g_src (get_adr (adr_at pkt 8) : Nat)] := by
  rw [emitted_of_out _ _ _ (call_start_out fw pkt w)]
  simp only [List.filter_append, filter_address_store_lc_dump]
  split <;> simp [is_address_store, call_started]

/-- C11. For every frame (all byte values, also those from 0x80 up),
`dmr_call_start_hook` and, on the radio (plain `char` unsigned),
`dmr_call_end_hook` take `dst` as the big-endian triplet at offsets 5-7 and
`src` as the one at offsets 8-10, both below `2^24`; these are the values the
start hook stores in `g_dst` and `g_src` and the values both hooks print in
their notification. -/
theorem call_hooks_read_triplets {σ : Type} (abi : ABI) (fw : Firmware σ) (pkt : Frame)
    (w : World σ) :
    triplet pkt 5 < 2 ^ 24 ∧ triplet pkt 8 < 2 ^ 24 ∧
    (let w1 := (dmr_call_start_hook fw pkt w).2
     w1.g_dst = (triplet pkt 5 : Nat) ∧ w1.g_src = (triplet pkt 8 : Nat) ∧
       (emitted w w1).filter is_address_store =
         [.store .g_dst (triplet pkt 5 : Nat), .store .g_src (triplet pkt 8 : Nat)] ∧
       (emitted w w1).filter is_notification =
         (if w.incall = 0 then [call_started (triplet pkt 8 : Nat) (triplet pkt 5 : Nat)]
          else [])) ∧
    (abi.char_signed = false →
      char_adr abi pkt 5 = ((triplet pkt 5 : Nat) : Int) ∧
      char_adr abi pkt 8 = ((triplet pkt 8 : Nat) : Int) ∧
      (emitted w (dmr_call_end_hook abi fw pkt w).2).filter is_notification =
        (if w.incall ≠ 0 then [call_ended (triplet pkt 8 : Nat) (triplet pkt 5 : Nat)]
         else [])) := by
  refine ⟨triplet_lt pkt 5, triplet_lt pkt 8, ⟨?_, ?_, ?_, ?_⟩, ?_⟩
  · rw [call_start_g_dst, get_adr_adr_at]
  · rw [call_start_g_src, get_adr_adr_at]
  · rw [call_start_address_stores, get_adr_adr_at, get_adr_adr_at]
  · have h := call_start_notifications abi fw pkt w
    rw [get_adr_adr_at, get_adr_adr_at] at h
    exact h
  · intro hchar
    have h := call_end_notifications abi fw pkt w
    rw [char_adr_unsigned abi hchar, char_adr_unsigned abi hchar, get_adr_adr_at,
      get_adr_adr_at] at h
    refine ⟨?_, ?_, h⟩
    · rw [char_adr_unsigned abi hchar, get_adr_adr_at]
    · rw [char_adr_unsigned abi hchar, get_adr_adr_at]

/-- With a signed plain `char` the hand computation of `dmr_call_end_hook` sign
extends a byte from 0x80 up: for a destination 200 (byte 0xc8) it gives -56. -/
theorem char_adr_signed_example :
    char_adr { char_signed := true, bitfield_lsb_first := true } (frame_of 100 200) 5 = -56 ∧
      triplet (frame_of 100 200) 5 = 200 := by
  decide

/-- C11 at the documented call-end frame `08 2a 00 00 00 00 00 63 30 05 54 7c 2c
36`, delivered during a call on the radio: the notification reports the call
from 3147092 (0x300554) to 99 (0x000063). -/
theorem call_hooks_read_triplets_witness :
    arm_eabi.char_signed = false ∧
    triplet call_end_example 5 = 99 ∧ triplet call_end_example 8 = 3147092 ∧
    (emitted (invoke arm_eabi (stub_firmware 0) (.call_start call_start_example)
        (World.init 0 ()))
      (dmr_call_end_hook arm_eabi (stub_firmware 0) call_end_example
        (invoke arm_eabi (stub_firmware 0) (.call_start call_start_example)
          (World.init 0 ()))).2).filter is_notification =
      (if (invoke arm_eabi (stub_firmware 0) (.call_start call_start_example)
          (World.init 0 ())).incall ≠ 0 then
        [call_ended (triplet call_end_example 8 : Nat) (triplet call_end_example 5 : Nat)]
       else []) :=
  ⟨rfl, by decide, by decide,
    ((call_hooks_read_triplets arm_eabi (stub_firmware 0) call_end_example
      (invoke arm_eabi (stub_firmware 0) (.call_start call_start_example)
        (World.init 0 ()))).2.2.2 rfl).2.2⟩

theorem get_flco_eq (lc : lc_t) : get_flco lc = lc.pf_flco.val % 64 :=
  Nat.and_pow_two_sub_one_eq_mod lc.pf_flco.val 6

/-- C12. For every Full LC record, `get_flco` is the low 6 bits of its first
byte (so below 64, and the same for two records whose first bytes differ only
in the top two bits); `get_flco_str` is "grp" exactly for code 0, "u2u" exactly
for code 3 and "?" for every other code; and `dump_full_lc` always logs the
numeric code next to that string. -/
theorem flco_classification (lc : lc_t) :
    get_flco lc = lc.pf_flco.val % 64 ∧ get_flco lc < 64 ∧
    (∀ lc2 : lc_t, lc2.pf_flco.val % 64 = lc.pf_flco.val % 64 →
      get_flco lc2 = get_flco lc ∧ get_flco_str lc2 = get_flco_str lc) ∧
    (get_flco_str lc = "grp" ↔ get_flco lc = 0) ∧
    (get_flco_str lc = "u2u" ↔ get_flco lc = 3) ∧
    (get_flco_str lc = "?" ↔ (get_flco lc ≠ 0 ∧ get_flco lc ≠ 3)) ∧
    (∀ (σ : Type) (w : World σ), emitted w (dump_full_lc lc w) =
      [.PRINT "flco=%d %s fid=%d svc=%d src=%d dst=%d\n"
        [Arg.int (get_flco lc : Nat), Arg.str (get_flco_str lc), Arg.int (lc.fid.val : Nat),
         Arg.int (lc.svc_opts.val : Nat), Arg.int (get_adr lc.src : Nat),
         Arg.int (get_adr lc.dst : Nat)]]) := by
  refine ⟨get_flco_eq lc, ?_, ?_, ?_, ?_, ?_, ?_⟩
  · rw [get_flco_eq]
    exact Nat.mod_lt _ (by decide)
  · intro lc2 h
    have h1 : get_flco lc2 = get_flco lc := by rw [get_flco_eq, get_flco_eq, h]
    exact ⟨h1, by simp only [get_flco_str, h1]⟩
  · unfold get_flco_str
    split <;> simp_all
  · unfold get_flco_str
    split <;> simp_all
  · unfold get_flco_str
    split <;> simp_all
  · intro σ w
    simp [emitted, dump_full_lc, emit]

/-- C12 at a unit to unit record (first byte 0x03) and the same record with the
top two bits of its first byte set (0xc3): both have code 3 and the string
"u2u". -/
theorem flco_classification_witness :
    (lc_with_first_byte 0xc3).pf_flco.val % 64 = (lc_with_first_byte 0x03).pf_flco.val % 64 ∧
    get_flco (lc_with_first_byte 0xc3) = get_flco (lc_with_first_byte 0x03) ∧
    get_flco_str (lc_with_first_byte 0xc3) = get_flco_str (lc_with_first_byte 0x03) ∧
    get_flco (lc_with_first_byte 0x03) = 3 ∧
    get_flco_str (lc_with_first_byte 0x03) = "u2u" :=
  have h := (flco_classification (lc_with_first_byte 0x03)).2.2.1 (lc_with_first_byte 0xc3)
    (by decide)
  ⟨by decide, h.1, h.2, by decide, by decide⟩

/-- C16. The two address extractions inside a call hook agree. For every frame,
the `dst` and `src` that `dumpraw_lc` logs (the `lc_t` at `pkt + 2`, read with
`get_adr`) are the values `dmr_call_start_hook` stores and prints and, on the
radio (plain `char` unsigned), the values `dmr_call_end_hook` prints; the `fid`
and `svc_opts` it logs are `pkt[3]` and `pkt[4]`. -/
theorem lc_decode_agrees_with_hooks {σ : Type} (abi : ABI) (fw : Firmware σ) (pkt : Frame)
    (w : World σ) :
    (lc_at pkt 2).fid = pkt 3 ∧ (lc_at pkt 2).svc_opts = pkt 4 ∧
    emitted w (dumpraw_lc pkt w) =
      [.PRINT "type=%d " [Arg.int ((pkt 1).val >>> 4 : Nat)],
       .PRINT "flco=%d %s fid=%d svc=%d src=%d dst=%d\n"
        [Arg.int (get_flco (lc_at pkt 2) : Nat), Arg.str (get_flco_str (lc_at pkt 2)),
         Arg.int ((pkt 3).val : Nat), Arg.int ((pkt 4).val : Nat),
         Arg.int (get_adr (lc_at pkt 2).src : Nat), Arg.int (get_adr (lc_at pkt 2).dst : Nat)]] ∧
    or_shift (bits_of_uint8 (pkt 7)) (bits_of_uint8 (pkt 6)) (bits_of_uint8 (pkt 5)) =
      (get_adr (lc_at pkt 2).dst : Nat) ∧
    or_shift (bits_of_uint8 (pkt 10)) (bits_of_uint8 (pkt 9)) (bits_of_uint8 (pkt 8)) =
      (get_adr (lc_at pkt 2).src : Nat) ∧
    (let w1 := (dmr_call_start_hook fw pkt w).2
     w1.g_dst = (get_adr (lc_at pkt 2).dst : Nat) ∧ w1.g_src = (get_adr (lc_at pkt 2).src : Nat) ∧
       (emitted w w1).filter is_notification =
         (if w.incall = 0 then
            [call_started (get_adr (lc_at pkt 2).src : Nat) (get_adr (lc_at pkt 2).dst : Nat)]
          else [])) ∧
    (abi.char_signed = false →
      char_adr abi pkt 5 = (get_adr (lc_at pkt 2).dst : Nat) ∧
      char_adr abi pkt 8 = (get_adr (lc_at pkt 2).src : Nat) ∧
      (emitted w (dmr_call_end_hook abi fw pkt w).2).filter is_notification =
        (if w.incall ≠ 0 then
           [call_ended (get_adr (lc_at pkt 2).src : Nat) (get_adr (lc_at pkt 2).dst : Nat)]
         else [])) := by
  have hd : (lc_at pkt 2).dst = adr_at pkt 5 := rfl
  have hs : (lc_at pkt 2).src = adr_at pkt 8 := rfl
  rw [hd, hs]
  refine ⟨rfl, rfl, ?_, hook_dst_eq pkt, hook_src_eq pkt, ⟨call_start_g_dst fw pkt w,
    call_start_g_src fw pkt w, call_start_notifications abi fw pkt w⟩, ?_⟩
  · rw [emitted_of_out _ _ (lc_dump pkt) (by rw [dumpraw_lc_eq])]
    rfl
  · intro hchar
    have h := call_end_notifications abi fw pkt w
    rw [char_adr_unsigned abi hchar, char_adr_unsigned abi hchar] at h
    exact ⟨char_adr_unsigned abi hchar pkt 5, char_adr_unsigned abi hchar pkt 8, h⟩

/-- C16 at the documented call-end frame, on the radio: the generic decode and
the hand computation both give 3147092 and 99. -/
theorem lc_decode_agrees_with_hooks_witness :
    arm_eabi.char_signed = false ∧
    char_adr arm_eabi call_end_example 5 = (get_adr (lc_at call_end_example 2).dst : Nat) ∧
    char_adr arm_eabi call_end_example 8 = (get_adr (lc_at call_end_example 2).src : Nat) ∧
    get_adr (lc_at call_end_example 2).dst = 99 ∧
    get_adr (lc_at call_end_example 2).src = 3147092 :=
  have h := (lc_decode_agrees_with_hooks arm_eabi (stub_firmware 0) call_end_example
    (World.init 0 ())).2.2.2.2.2.2 rfl
  ⟨rfl, h.1, h.2.1, by decide, by decide⟩

/-! ## C13-C15: the short header and the header decodes -/

theorem raw_sh_hdr_at_congr (abi : ABI) (p q : Frame) (h : agree_below 11 p q) :
    raw_sh_hdr_at abi p 2 = raw_sh_hdr_at abi q 2 := by
  have h2 := h 2 (by decide)
  have h3 := h 3 (by decide)
  have h4 := h 4 (by decide)
  have h5 := h 5 (by decide)
  have h6 := h 6 (by decide)
  have h7 := h 7 (by decide)
  have h8 := h 8 (by decide)
  have h9 := h 9 (by decide)
  have h10 := h 10 (by decide)
  simp [raw_sh_hdr_at, adr_at, h2, h3, h4, h5, h6, h7, h8, h9, h10]

theorem lc_dump_congr (p q : Frame) (h : agree_below 11 p q) : lc_dump p = lc_dump q := by
  have h1 := h 1 (by decide)
  have h2 := h 2 (by decide)
  have h3 := h 3 (by decide)
  have h4 := h 4 (by decide)
  have h5 := h 5 (by decide)
  have h6 := h 6 (by decide)
  have h7 := h 7 (by decide)
  have h8 := h 8 (by decide)
  have h9 := h 9 (by decide)
  have h10 := h 10 (by decide)
  simp [lc_dump, lc_at, adr_at, get_flco, get_flco_str, h1, h2, h3, h4, h5, h6, h7, h8, h9, h10]

theorem sms_header_frame_agree (o0 o1 : uint8_t) (k : Nat) (hk : 2 ≤ k) :
    sms_header_frame o0 o1 k = sms_header_example k := by
  obtain ⟨j, rfl⟩ : ∃ j, k = j + 2 := ⟨k - 2, by omega⟩
  rfl

theorem raw_sh_hdr_at_sms_header (abi : ABI) (o0 o1 : uint8_t) :
    raw_sh_hdr_at abi (sms_header_frame o0 o1) 2 = raw_sh_hdr_at abi sms_header_example 2 := by
  simp [raw_sh_hdr_at, adr_at, sms_header_frame_agree]

/-- C13, as stated, fails: in the documented SMS header frame the source the
code decodes is 3147092, from bytes 7-9 of the frame; the big-endian triplet at
bytes 8-10 is 349320. The `sap` it decodes is a nibble of byte index 3 (0x40): 0
with the bit-field order of the radio, 4 with the other order, whereas the high
nibble of byte index 2 (0x02) is 0. -/
theorem sms_header_src_is_not_bytes_8_10 :
    get_adr (raw_sh_hdr_at arm_eabi sms_header_example 2).src = 3147092 ∧
      triplet sms_header_example 7 = 3147092 ∧
      triplet sms_header_example 8 = 349320 ∧
      get_adr (raw_sh_hdr_at arm_eabi sms_header_example 2).src ≠ triplet sms_header_example 8 ∧
      (raw_sh_hdr_at arm_eabi sms_header_example 2).sap = 0 ∧
      (raw_sh_hdr_at { char_signed := false, bitfield_lsb_first := false }
        sms_header_example 2).sap = 4 ∧
      (sms_header_example 2).val / 16 = 0 := by
  decide

/-- C13, amended. Decoding the documented SMS header frame (any two bytes of
overhead, then `02 40 00 00 63 30 05 54 88 00 83 0c`) with the `raw_sh_hdr_t`
at `pkt + 2` yields `dst = 99`, the triplet at bytes 4-6, and `src = 3147092`,
the triplet at bytes 7-9, as the source comment documents; `b0` is byte index 2
and `sap`, `ab2` are the two nibbles 4 and 0 of byte index 3, in the order the
compiler gives the bit-fields; and both hooks log these values. -/
theorem sms_header_decode {σ : Type} (abi : ABI) (o0 o1 : uint8_t) (fw : Firmware σ)
    (w : World σ) (len : Int) :
    let pkt := sms_header_frame o0 o1
    let h := raw_sh_hdr_at abi pkt 2
    get_adr h.dst = 99 ∧ get_adr h.dst = triplet pkt 4 ∧
      get_adr h.src = 3147092 ∧ get_adr h.src = triplet pkt 7 ∧
      h.b0 = 0x02 ∧ ((h.sap = 0 ∧ h.ab2 = 4) ∨ (h.sap = 4 ∧ h.ab2 = 0)) ∧
      (emitted w (dmr_sms_arrive_hook abi fw pkt w).2).take 3 =
        [.store .i h.sap,
         .NMPRINT "%s(sap=%d,src=%d,dst=%d,sp=%d,dp=%d) "
          [Arg.str "sm", Arg.int h.sap, Arg.int 3147092, Arg.int 99, Arg.int h.sp, Arg.int h.dp],
         .PRINT "%s(sap=%d,src=%d,dst=%d,sp=%d,dp=%d)\n"
          [Arg.str "sm", Arg.int h.sap, Arg.int 3147092, Arg.int 99, Arg.int h.sp,
           Arg.int h.dp]] ∧
      (emitted w (dmr_handle_data_hook abi fw pkt len w).2).take 3 =
        [.store .i h.sap,
         .NMPRINT "%s(sap=%d,src=%d,dst=%d,sp=%d,dp=%d) "
          [Arg.str "da", Arg.int h.sap, Arg.int 3147092, Arg.int 99, Arg.int h.sp, Arg.int h.dp],
         .PRINT "%s(sap=%d,src=%d,dst=%d,sp=%d,dp=%d)\n"
          [Arg.str "da", Arg.int h.sap, Arg.int 3147092, Arg.int 99, Arg.int h.sp,
           Arg.int h.dp]] := by
  intro pkt h
  have hh : raw_sh_hdr_at abi pkt 2 = raw_sh_hdr_at abi sms_header_example 2 :=
    raw_sh_hdr_at_sms_header abi o0 o1
  have e4 : triplet pkt 4 = 99 := by
    simp only [triplet, pkt]
    rw [sms_header_frame_agree _ _ 4 (by decide), sms_header_frame_agree _ _ (4 + 1) (by decide),
      sms_header_frame_agree _ _ (4 + 2) (by decide)]
    decide
  have e7 : triplet pkt 7 = 3147092 := by
    simp only [triplet, pkt]
    rw [sms_header_frame_agree _ _ 7 (by decide), sms_header_frame_agree _ _ (7 + 1) (by decide),
      sms_header_frame_agree _ _ (7 + 2) (by decide)]
    decide
  have ed : get_adr (raw_sh_hdr_at abi pkt 2).dst = 99 := by
    rw [hh]
    rcases abi with ⟨_ | _, _ | _⟩ <;> decide
  have es : get_adr (raw_sh_hdr_at abi pkt 2).src = 3147092 := by
    rw [hh]
    rcases abi with ⟨_ | _, _ | _⟩ <;> decide
  have eb : (raw_sh_hdr_at abi pkt 2).b0 = 0x02 := by
    rw [hh]
    rcases abi with ⟨_ | _, _ | _⟩ <;> decide
  have en : ((raw_sh_hdr_at abi pkt 2).sap = 0 ∧ (raw_sh_hdr_at abi pkt 2).ab2 = 4) ∨
      ((raw_sh_hdr_at abi pkt 2).sap = 4 ∧ (raw_sh_hdr_at abi pkt 2).ab2 = 0) := by
    rw [hh]
    rcases abi with ⟨_ | _, _ | _⟩ <;> decide
  refine ⟨ed, by rw [ed, e4], es, by rw [es, e7], eb, en, ?_, ?_⟩
  · rw [emitted_of_out _ _ _ (sms_arrive_out abi fw pkt w)]
    simp only [sh_dump, es, ed]
    rfl
  · rw [emitted_of_out _ _ _ (handle_data_out abi fw pkt len w)]
    simp only [sh_dump, es, ed]
    rfl

/-- C14, as stated, fails: on the documented SMS header frame the fields the
code decodes, with either bit-field order, are not those of the stated layout;
for one, `dst` is 99 (bytes 2-4 after the overhead), not 4194304 (bytes 1-3). -/
theorem short_header_is_not_the_stated_layout :
    (raw_sh_hdr_at arm_eabi sms_header_example 2).fields =
        { sap := 0, ab2 := 4, dst := 99, src := 3147092, sp := 0, dp := 1, sf := 2 } ∧
      (raw_sh_hdr_at { char_signed := false, bitfield_lsb_first := false }
          sms_header_example 2).fields =
        { sap := 4, ab2 := 0, dst := 99, src := 3147092, sp := 4, dp := 2, sf := 0 } ∧
      stated_short_header sms_header_example =
        { sap := 0, ab2 := 2, dst := 4194304, src := 6500357, sp := 2, dp := 5, sf := 0 } ∧
      (raw_sh_hdr_at arm_eabi sms_header_example 2).fields ≠
        stated_short_header sms_header_example ∧
      (raw_sh_hdr_at { char_signed := false, bitfield_lsb_first := false }
          sms_header_example 2).fields ≠ stated_short_header sms_header_example := by
  decide

/-- C14, amended. For every frame and either bit-field order, the
`raw_sh_hdr_t` at `pkt + 2` takes `b0` from byte 0 after the overhead, `sap`
and `ab2` as the two nibbles of byte 1, `dst` as the big-endian triplet at
bytes 2-4, `src` as the one at bytes 5-7, and `sp`, `dp`, `sf` as the 3, 3 and
2 bit groups of byte 8; `sap` is below 16 and every value from 0 to 15 is
decoded and logged as it is, with no validation. -/
theorem short_header_overlay (abi : ABI) (pkt : Frame) :
    let h := raw_sh_hdr_at abi pkt 2
    let x := (pkt 3).val
    let t := (pkt 10).val
    h.b0 = pkt 2 ∧ get_adr h.dst = triplet pkt 4 ∧ get_adr h.src = triplet pkt 7 ∧
      ((h.sap = x % 16 ∧ h.ab2 = x / 16) ∨ (h.sap = x / 16 ∧ h.ab2 = x % 16)) ∧
      h.sap < 16 ∧ h.ab2 < 16 ∧
      ((h.sp = t % 8 ∧ h.dp = t / 8 % 8 ∧ h.sf = t / 64) ∨
       (h.sp = t / 32 ∧ h.dp = t / 4 % 8 ∧ h.sf = t % 4)) ∧
      h.sp < 8 ∧ h.dp < 8 ∧ h.sf < 4 ∧
      (∀ v : Fin 16, ∃ q : Frame, (raw_sh_hdr_at abi q 2).sap = v.val ∧
        ∀ tag : String, (sh_dump tag (raw_sh_hdr_at abi q 2)).map print_args =
          [[], [Arg.str tag, Arg.int v.val, Arg.int (get_adr (raw_sh_hdr_at abi q 2).src : Nat),
                Arg.int (get_adr (raw_sh_hdr_at abi q 2).dst : Nat),
                Arg.int ((raw_sh_hdr_at abi q 2).sp : Nat), Arg.int ((raw_sh_hdr_at abi q 2).dp : Nat)],
           [Arg.str tag, Arg.int v.val, Arg.int (get_adr (raw_sh_hdr_at abi q 2).src : Nat),
                Arg.int (get_adr (raw_sh_hdr_at abi q 2).dst : Nat),
                Arg.int ((raw_sh_hdr_at abi q 2).sp : Nat),
                Arg.int ((raw_sh_hdr_at abi q 2).dp : Nat)]]) := by
  intro h x t
  have hx : x < 256 := (pkt 3).isLt
  have ht : t < 256 := (pkt 10).isLt
  have hd : get_adr h.dst = triplet pkt 4 := get_adr_adr_at pkt 4
  have hs : get_adr h.src = triplet pkt 7 := get_adr_adr_at pkt 7
  refine ⟨rfl, hd, hs, ?_⟩
  cases hb : abi.bitfield_lsb_first
  · have e1 : h.sap = x / 16 := by simp [h, x, raw_sh_hdr_at, hb]
    have e2 : h.ab2 = x % 16 := by simp [h, x, raw_sh_hdr_at, hb]
    have e3 : h.sp = t / 32 := by simp [h, t, raw_sh_hdr_at, hb]
    have e4 : h.dp = t / 4 % 8 := by simp [h, t, raw_sh_hdr_at, hb]
    have e5 : h.sf = t % 4 := by simp [h, t, raw_sh_hdr_at, hb]
    refine ⟨Or.inr ⟨e1, e2⟩, by omega, by omega, Or.inr ⟨e3, e4, e5⟩, by omega, by omega,
      by omega, ?_⟩
    intro v
    refine ⟨fun _ => Fin.ofNat (v.val * 16), ?_⟩
    have hv := v.isLt
    have e6 : (raw_sh_hdr_at abi (fun _ => (Fin.ofNat (v.val * 16) : uint8_t)) 2).sap = v.val := by
      simp only [raw_sh_hdr_at, hb, val_ofNat_byte]
      simp only [Bool.false_eq_true, if_false]
      omega
    refine ⟨e6, ?_⟩
    intro tag
    simp only [sh_dump, List.map, print_args, e6]
  · have e1 : h.sap = x % 16 := by simp [h, x, raw_sh_hdr_at, hb]
    have e2 : h.ab2 = x / 16 := by simp [h, x, raw_sh_hdr_at, hb]
    have e3 : h.sp = t % 8 := by simp [h, t, raw_sh_hdr_at, hb]
    have e4 : h.dp = t / 8 % 8 := by simp [h, t, raw_sh_hdr_at, hb]
    have e5 : h.sf = t / 64 := by simp [h, t, raw_sh_hdr_at, hb]
    refine ⟨Or.inl ⟨e1, e2⟩, by omega, by omega, Or.inl ⟨e3, e4, e5⟩, by omega, by omega,
      by omega, ?_⟩
    intro v
    refine ⟨fun _ => Fin.ofNat v.val, ?_⟩
    have hv := v.isLt
    have e6 : (raw_sh_hdr_at abi (fun _ => (Fin.ofNat v.val : uint8_t)) 2).sap = v.val := by
      simp only [raw_sh_hdr_at, hb, val_ofNat_byte]
      simp only [if_true]
      omega
    refine ⟨e6, ?_⟩
    intro tag
    simp only [sh_dump, List.map, print_args, e6]

theorem call_start_original_calls {σ : Type} (fw : Firmware σ) (pkt : Frame) (w : World σ) :
    (emitted w (dmr_call_start_hook fw pkt w).2).filter is_original_call =
      [.dmr_call_start pkt] := by
  rw [emitted_of_out _ _ _ (call_start_out fw pkt w)]
  simp only [List.filter_append, filter_original_lc_dump]
  split <;> simp [is_original_call, call_started]

theorem call_end_original_calls {σ : Type} (abi : ABI) (fw : Firmware σ) (pkt : Frame)
    (w : World σ) :
    (emitted w (dmr_call_end_hook abi fw pkt w).2).filter is_original_call =
      [.dmr_call_end pkt] := by
  rw [emitted_of_out _ _ _ (call_end_out abi fw pkt w)]
  simp only [List.filter_append, filter_original_lc_dump]
  split <;> simp [is_original_call, call_ended]

theorem handle_data_original_calls {σ : Type} (abi : ABI) (fw : Firmware σ) (pkt : Frame)
    (len : Int) (w : World σ) :
    (emitted w (dmr_handle_data_hook abi fw pkt len w).2).filter is_original_call =
      [.dmr_handle_data pkt len] := by
  rw [emitted_of_out _ _ _ (handle_data_out abi fw pkt len w)]
  simp [List.filter_append, filter_original_sh_dump, is_original_call]

theorem sms_arrive_original_calls {σ : Type} (abi : ABI) (fw : Firmware σ) (pkt : Frame)
    (w : World σ) :
    (emitted w (dmr_sms_arrive_hook abi fw pkt w).2).filter is_original_call =
      [.dmr_sms_arrive pkt] := by
  rw [emitted_of_out _ _ _ (sms_arrive_out abi fw pkt w)]
  simp [List.filter_append, filter_original_sh_dump, is_original_call]

theorem emitted_dumpraw_lc {σ : Type} (pkt : Frame) (w : World σ) :
    emitted w (dumpraw_lc pkt w) = lc_dump pkt :=
  emitted_of_out _ _ _ (by rw [dumpraw_lc_eq])

theorem emitted_dump_raw_short_header {σ : Type} (tag : String) (h : raw_sh_hdr_t)
    (w : World σ) : emitted w (dump_raw_short_header tag h w) = sh_dump tag h :=
  emitted_of_out _ _ _ (by rw [dump_raw_short_header_eq])

/-- C15, as stated, fails: the documented call-end frame and the same frame
with the byte at offset 10 changed agree on their first 10 bytes, so on every
byte of a buffer declared 7, 8 or 10 bytes long; yet both header decodes log a
full record for each, and the records differ. The decodes neither return
`Truncated` nor stay below the declared length: they read offset 10. -/
theorem header_decodes_read_offset_10 :
    (∀ k, k < 10 → call_end_example k = call_end_example_byte10 k) ∧
      (emitted (World.init 0 ()) (dumpraw_lc call_end_example (World.init 0 ()))).map print_args =
        [[Arg.int 2], [Arg.int 0, Arg.str "grp", Arg.int 0, Arg.int 0, Arg.int 3147092,
          Arg.int 99]] ∧
      (emitted (World.init 0 ()) (dumpraw_lc call_end_example_byte10 (World.init 0 ()))).map
          print_args =
        [[Arg.int 2], [Arg.int 0, Arg.str "grp", Arg.int 0, Arg.int 0, Arg.int 3147093,
          Arg.int 99]] ∧
      (emitted (World.init 0 ()) (dump_raw_short_header "da"
          (raw_sh_hdr_at arm_eabi call_end_example 2) (World.init 0 ()))).map print_args ≠
        (emitted (World.init 0 ()) (dump_raw_short_header "da"
          (raw_sh_hdr_at arm_eabi call_end_example_byte10 2) (World.init 0 ()))).map print_args := by
  decide

/-- C15, amended. The header decodes take no length and have no `Truncated`
result. For every frame, `dumpraw_lc` logs its two lines and
`dump_raw_short_header` at `pkt + 2` stores `i` and logs its two lines, from the
bytes at offsets below 11 alone (two frames that agree there give the same
log), whatever length the buffer was declared with; and every hook then
forwards to its original handler. -/
theorem header_decodes_use_eleven_bytes {σ : Type} (abi : ABI) (tag : String) (p q : Frame)
    (hagree : agree_below 11 p q) (fw : Firmware σ) (w : World σ) (len : Int) :
    emitted w (dumpraw_lc p w) = emitted w (dumpraw_lc q w) ∧
      (emitted w (dumpraw_lc p w)).length = 2 ∧
      emitted w (dump_raw_short_header tag (raw_sh_hdr_at abi p 2) w) =
        emitted w (dump_raw_short_header tag (raw_sh_hdr_at abi q 2) w) ∧
      (emitted w (dump_raw_short_header tag (raw_sh_hdr_at abi p 2) w)).length = 3 ∧
      (emitted w (dmr_call_start_hook fw p w).2).filter is_original_call =
        [.dmr_call_start p] ∧
      (emitted w (dmr_call_end_hook abi fw p w).2).filter is_original_call =
        [.dmr_call_end p] ∧
      (emitted w (dmr_handle_data_hook abi fw p len w).2).filter is_original_call =
        [.dmr_handle_data p len] ∧
      (emitted w (dmr_sms_arrive_hook abi fw p w).2).filter is_original_call =
        [.dmr_sms_arrive p] := by
  refine ⟨?_, ?_, ?_, ?_, call_start_original_calls fw p w, call_end_original_calls abi fw p w,
    handle_data_original_calls abi fw p len w, sms_arrive_original_calls abi fw p w⟩
  · rw [emitted_dumpraw_lc, emitted_dumpraw_lc, lc_dump_congr p q hagree]
  · rw [emitted_dumpraw_lc]
    rfl
  · rw [raw_sh_hdr_at_congr abi p q hagree]
  · rw [emitted_dump_raw_short_header]
    rfl

/-- C15 amended, at the documented call-end frame and its first eleven bytes
followed by zeros. -/
theorem header_decodes_use_eleven_bytes_witness :
    agree_below 11 call_end_example call_end_example_cut ∧
    emitted (World.init 0 ()) (dumpraw_lc call_end_example (World.init 0 ())) =
      emitted (World.init 0 ()) (dumpraw_lc call_end_example_cut (World.init 0 ())) :=
  have h : agree_below 11 call_end_example call_end_example_cut := by
    unfold agree_below
    decide
  ⟨h, (header_decodes_use_eleven_bytes arm_eabi "da" call_end_example call_end_example_cut h
    (stub_firmware 0) (World.init 0 ()) 12).1⟩

/-! ## C17-C19: invariants of the call tracker over runs -/

section tracker

variable {σ : Type}

theorem run_snoc (abi : ABI) (fw : Firmware σ) (cs : List Invocation) (c : Invocation)
    (w : World σ) : run abi fw (cs ++ [c]) w = invoke abi fw c (run abi fw cs w) := by
  simp [run, List.foldl_append]

theorem emitted_run_snoc (abi : ABI) (fw : Firmware σ) (cs : List Invocation) (c : Invocation)
    (w : World σ) :
    emitted w (run abi fw (cs ++ [c]) w) =
      emitted w (run abi fw cs w) ++
        emitted (run abi fw cs w) (invoke abi fw c (run abi fw cs w)) := by
  rw [run_snoc]
  exact emitted_trans _ _ _ (run_out abi fw cs w) (invoke_out abi fw c _)

theorem filter_notification_sh_dump (tag : String) (h : raw_sh_hdr_t) :
    (sh_dump tag h).filter is_notification = [] := by
  simp [sh_dump, is_notification, is_call_started, is_call_ended]

theorem handle_data_notifications (abi : ABI) (fw : Firmware σ) (pkt : Frame) (len : Int)
    (w : World σ) :
    (emitted w (dmr_handle_data_hook abi fw pkt len w).2).filter is_notification = [] := by
  rw [emitted_of_out _ _ _ (handle_data_out abi fw pkt len w)]
  simp [List.filter_append, filter_notification_sh_dump, is_notification, is_call_started,
    is_call_ended]

theorem sms_arrive_notifications (abi : ABI) (fw : Firmware σ) (pkt : Frame) (w : World σ) :
    (emitted w (dmr_sms_arrive_hook abi fw pkt w).2).filter is_notification = [] := by
  rw [emitted_of_out _ _ _ (sms_arrive_out abi fw pkt w)]
  simp [List.filter_append, filter_notification_sh_dump, is_notification, is_call_started,
    is_call_ended]

theorem apply_squelch_notifications (fw : Firmware σ) (event : Nat) (mode : uint8_t)
    (w : World σ) :
    (emitted w (dmr_apply_squelch_hook fw event mode w).2).filter is_notification = [] := by
  rw [emitted_of_out _ _ _ (apply_squelch_out fw event mode w)]
  split <;> simp [is_notification, is_call_started, is_call_ended]

theorem apply_privsquelch_notifications (fw : Firmware σ) (event : Nat) (mode : uint8_t)
    (w : World σ) :
    (emitted w (dmr_apply_privsquelch_hook fw event mode w).2).filter is_notification = [] := by
  rw [emitted_of_out _ _ _ (apply_privsquelch_out fw event mode w)]
  split <;> simp [is_notification, is_call_started, is_call_ended]

theorem handle_data_globals (abi : ABI) (fw : Firmware σ) (pkt : Frame) (len : Int)
    (w : World σ) :
    (dmr_handle_data_hook abi fw pkt len w).2.incall = w.incall ∧
      (dmr_handle_data_hook abi fw pkt len w).2.g_src = w.g_src ∧
      (dmr_handle_data_hook abi fw pkt len w).2.g_dst = w.g_dst := by
  simp [dmr_handle_data_hook, call_original, call_firmware, emit, dump_raw_short_header_eq]

theorem sms_arrive_globals (abi : ABI) (fw : Firmware σ) (pkt : Frame) (w : World σ) :
    (dmr_sms_arrive_hook abi fw pkt w).2.incall = w.incall ∧
      (dmr_sms_arrive_hook abi fw pkt w).2.g_src = w.g_src ∧
      (dmr_sms_arrive_hook abi fw pkt w).2.g_dst = w.g_dst := by
  simp [dmr_sms_arrive_hook, call_original, call_firmware, emit, dump_raw_short_header_eq]

theorem apply_squelch_globals (fw : Firmware σ) (event : Nat) (mode : uint8_t) (w : World σ) :
    (dmr_apply_squelch_hook fw event mode w).2.incall = w.incall ∧
      (dmr_apply_squelch_hook fw event mode w).2.g_src = w.g_src ∧
      (dmr_apply_squelch_hook fw event mode w).2.g_dst = w.g_dst := by
  unfold dmr_apply_squelch_hook
  split <;> simp [call_firmware, emit]

theorem apply_privsquelch_globals (fw : Firmware σ) (event : Nat) (mode : uint8_t)
    (w : World σ) :
    (dmr_apply_privsquelch_hook fw event mode w).2.incall = w.incall ∧
      (dmr_apply_privsquelch_hook fw event mode w).2.g_src = w.g_src ∧
      (dmr_apply_privsquelch_hook fw event mode w).2.g_dst = w.g_dst := by
  unfold dmr_apply_privsquelch_hook
  split <;> simp [call_firmware, emit]

theorem notification_kinds_append (es ds : List Effect) :
    notification_kinds (es ++ ds) = notification_kinds es ++ notification_kinds ds := by
  simp [notification_kinds]

/-- What one invocation adds to the notifications and does to `incall`. -/
theorem invoke_step (abi : ABI) (fw : Firmware σ) (c : Invocation) (w : World σ) :
    notification_kinds (emitted w (invoke abi fw c w)) =
        (match call_kind c with
         | some true => if w.incall = 0 then [true] else []
         | some false => if w.incall ≠ 0 then [false] else []
         | none => []) ∧
      (invoke abi fw c w).incall =
        (match call_kind c with
         | some true => 1
         | some false => 0
         | none => w.incall) := by
  cases c with
  | call_start pkt =>
    refine ⟨?_, call_start_incall fw pkt w⟩
    simp only [notification_kinds, call_start_notifications, call_kind]
    split <;> simp [is_call_started, call_started]
  | call_end pkt =>
    refine ⟨?_, call_end_incall abi fw pkt w⟩
    simp only [notification_kinds, call_end_notifications, call_kind]
    split <;> simp [is_call_started, call_ended]
  | handle_data pkt len =>
    exact ⟨by simp [notification_kinds, invoke, handle_data_notifications, call_kind],
      (handle_data_globals abi fw pkt len w).1⟩
  | sms_arrive pkt =>
    exact ⟨by simp [notification_kinds, invoke, sms_arrive_notifications, call_kind],
      (sms_arrive_globals abi fw pkt w).1⟩
  | apply_squelch event mode =>
    exact ⟨by simp [notification_kinds, invoke, apply_squelch_notifications, call_kind],
      (apply_squelch_globals fw event mode w).1⟩
  | apply_privsquelch event mode =>
    exact ⟨by simp [notification_kinds, invoke, apply_privsquelch_notifications, call_kind],
      (apply_privsquelch_globals fw event mode w).1⟩

theorem alternation_succ (n : Nat) : alternation (n + 1) = alternation n ++ [n % 2 == 0] := by
  simp [alternation, List.range_succ]

theorem alternation_length (n : Nat) : (alternation n).length = n := by
  simp [alternation]

end tracker

theorem run_kinds_snoc {σ : Type} (abi : ABI) (fw : Firmware σ) (cs : List Invocation)
    (c : Invocation) (w : World σ) :
    run_kinds abi fw (cs ++ [c]) w =
      run_kinds abi fw cs w ++
        notification_kinds (emitted (run abi fw cs w) (invoke abi fw c (run abi fw cs w))) := by
  rw [run_kinds, emitted_run_snoc, notification_kinds_append]
  rfl

theorem tracker_invariant {σ : Type} (abi : ABI) (fw : Firmware σ) (cs : List Invocation)
    (w : World σ) (h0 : w.incall = 0) :
    run_kinds abi fw cs w = alternation (run_kinds abi fw cs w).length ∧
      (run abi fw cs w).incall = (((run_kinds abi fw cs w).length % 2 : Nat) : Int) ∧
      (((run_kinds abi fw cs w).count true : Nat) : Int) - (run_kinds abi fw cs w).count false =
        (run abi fw cs w).incall ∧
      ((run abi fw cs w).incall = 1 ↔ (cs.filterMap call_kind).getLast? = some true) := by
  induction cs using List.reverseRecOn with
  | nil => simp [run_kinds, run_nil, emitted_self, notification_kinds, alternation, h0]
  | append_singleton cs c ih =>
    obtain ⟨ha, hb, hc, hd⟩ := ih
    have hs := invoke_step abi fw c (run abi fw cs w)
    rw [run_kinds_snoc, run_snoc, hs.1, hs.2]
    generalize run_kinds abi fw cs w = ks at *
    generalize (run abi fw cs w).incall = I at *
    rw [List.filterMap_append]
    generalize cs.filterMap call_kind = L at *
    have hlt : ks.length % 2 < 2 := Nat.mod_lt _ (by decide)
    cases hk : call_kind c with
    | none =>
      simp only [List.filterMap_cons, List.filterMap_nil, hk, List.append_nil]
      exact ⟨ha, hb, hc, hd⟩
    | some b =>
      cases b with
      | true =>
        by_cases hI : I = 0
        · have hpar : ks.length % 2 = 0 := by omega
          simp only [List.filterMap_cons, List.filterMap_nil, hk, hI, if_true]
          refine ⟨?_, ?_, ?_, ?_⟩
          · rw [List.length_append, List.length_singleton, alternation_succ, ← ha, hpar]
            rfl
          · rw [List.length_append, List.length_singleton]
            omega
          · rw [List.count_append]
            simp
            omega
          · simp
        · have hpar : ks.length % 2 = 1 := by omega
          simp only [List.filterMap_cons, List.filterMap_nil, hk, hI, if_false, List.append_nil]
          refine ⟨ha, by omega, by omega, by simp⟩
      | false =>
        by_cases hI : I = 0
        · have hpar : ks.length % 2 = 0 := by omega
          simp only [List.filterMap_cons, List.filterMap_nil, hk, hI, ne_eq, not_true_eq_false,
            if_false, List.append_nil]
          refine ⟨ha, by omega, by omega, by simp⟩
        · have hpar : ks.length % 2 = 1 := by omega
          simp only [List.filterMap_cons, List.filterMap_nil, hk, hI, ne_eq, not_false_eq_true,
            if_true]
          refine ⟨?_, ?_, ?_, ?_⟩
          · rw [List.length_append, List.length_singleton, alternation_succ, ← ha, hpar]
            rfl
          · rw [List.length_append, List.length_singleton]
            omega
          · rw [List.count_append]
            simp
            omega
          · simp

theorem started_not_ended (e : Effect) : is_call_started e = true → is_call_ended e = false := by
  cases e with
  | printf fmt args =>
    simp only [is_call_started, is_call_ended, decide_eq_true_eq, decide_eq_false_iff_not]
    intro h
    rw [h]
    decide
  | _ => simp [is_call_started]

theorem notification_kinds_cons (e : Effect) (es : List Effect) :
    notification_kinds (e :: es) =
      (if is_call_started e then [true] else if is_call_ended e then [false] else []) ++
        notification_kinds es := by
  have hx := started_not_ended e
  cases hS : is_call_started e <;> cases hE : is_call_ended e <;>
    simp_all [notification_kinds, is_notification, List.filter_cons]

theorem countP_started_eq (es : List Effect) :
    es.countP is_call_started = (notification_kinds es).count true := by
  induction es with
  | nil => rfl
  | cons e es ih =>
    have hx := started_not_ended e
    rw [notification_kinds_cons, List.countP_cons, List.count_append, ih]
    cases hS : is_call_started e <;> cases hE : is_call_ended e <;> simp_all
    omega

theorem countP_ended_eq (es : List Effect) :
    es.countP is_call_ended = (notification_kinds es).count false := by
  induction es with
  | nil => rfl
  | cons e es ih =>
    have hx := started_not_ended e
    rw [notification_kinds_cons, List.countP_cons, List.count_append, ih]
    cases hS : is_call_started e <;> cases hE : is_call_ended e <;> simp_all
    omega

/-- C17. For every finite sequence of hook invocations from a state with
`incall = 0`, and at every point `k` of it: the call notifications logged so far
strictly alternate "started", "ended", "started", ... beginning with "started";
`incall` is 0 or 1 and equals the number of "started" minus the number of
"ended" notifications; and `incall = 1` exactly when the most recent call-start
or call-end invocation was a call-start. -/
theorem call_notifications_alternate {σ : Type} (abi : ABI) (fw : Firmware σ)
    (cs : List Invocation) (w : World σ) (hidle : w.incall = 0) (k : Nat) :
    let w1 := run abi fw (cs.take k) w
    let es := emitted w w1
    notification_kinds es = alternation (notification_kinds es).length ∧
      (w1.incall = 0 ∨ w1.incall = 1) ∧
      w1.incall = ((es.countP is_call_started : Nat) : Int) - ((es.countP is_call_ended : Nat) : Int) ∧
      (w1.incall = 1 ↔ ((cs.take k).filterMap call_kind).getLast? = some true) := by
  intro w1 es
  obtain ⟨ha, hb, hc, hd⟩ := tracker_invariant abi fw (cs.take k) w hidle
  have hlt : (run_kinds abi fw (cs.take k) w).length % 2 < 2 := Nat.mod_lt _ (by decide)
  refine ⟨ha, ?_, ?_, hd⟩
  · show (run abi fw (cs.take k) w).incall = 0 ∨ (run abi fw (cs.take k) w).incall = 1
    omega
  · rw [countP_started_eq, countP_ended_eq]
    exact hc.symm

/-- C17 on a run from the state at system start: start, data, start, end, end,
squelch, start. The notifications are started, ended, started and `incall` is 1
at the end. -/
theorem call_notifications_alternate_witness :
    (World.init 1 ()).incall = 0 ∧
    (let w1 := run arm_eabi (stub_firmware 0)
        ([Invocation.call_start call_start_example, .handle_data sms_header_example 12,
          .call_start call_start_example, .call_end call_end_example,
          .call_end call_end_example, .apply_squelch 0 0x08,
          .call_start call_start_other].take 7) (World.init 1 ())
     let es := emitted (World.init 1 ()) w1
     notification_kinds es = alternation (notification_kinds es).length ∧
      (w1.incall = 0 ∨ w1.incall = 1) ∧
      w1.incall = ((es.countP is_call_started : Nat) : Int) - ((es.countP is_call_ended : Nat) : Int) ∧
      (w1.incall = 1 ↔
        (([Invocation.call_start call_start_example, .handle_data sms_header_example 12,
          .call_start call_start_example, .call_end call_end_example,
          .call_end call_end_example, .apply_squelch 0 0x08,
          .call_start call_start_other].take 7).filterMap call_kind).getLast? = some true)) ∧
    notification_kinds (emitted (World.init 1 ()) (run arm_eabi (stub_firmware 0)
        [Invocation.call_start call_start_example, .handle_data sms_header_example 12,
          .call_start call_start_example, .call_end call_end_example,
          .call_end call_end_example, .apply_squelch 0 0x08,
          .call_start call_start_other] (World.init 1 ()))) = [true, false, true] :=
  ⟨rfl,
   call_notifications_alternate arm_eabi (stub_firmware 0)
     [Invocation.call_start call_start_example, .handle_data sms_header_example 12,
      .call_start call_start_example, .call_end call_end_example,
      .call_end call_end_example, .apply_squelch 0 0x08,
      .call_start call_start_other] (World.init 1 ()) rfl 7,
   by decide⟩

theorem invoke_addresses {σ : Type} (abi : ABI) (fw : Firmware σ) (c : Invocation)
    (w : World σ) :
    ((invoke abi fw c w).g_src, (invoke abi fw c w).g_dst) =
      (match start_frame c with
       | some p => (((get_adr (adr_at p 8) : Nat) : Int), ((get_adr (adr_at p 5) : Nat) : Int))
       | none => (w.g_src, w.g_dst)) := by
  cases c with
  | call_start pkt => simp [invoke, start_frame, call_start_g_src, call_start_g_dst]
  | call_end pkt => simp [invoke, start_frame, call_end_g_src, call_end_g_dst]
  | handle_data pkt len => simp [invoke, start_frame, handle_data_globals]
  | sms_arrive pkt => simp [invoke, start_frame, sms_arrive_globals]
  | apply_squelch event mode => simp [invoke, start_frame, apply_squelch_globals]
  | apply_privsquelch event mode => simp [invoke, start_frame, apply_privsquelch_globals]

theorem run_addresses {σ : Type} (abi : ABI) (fw : Firmware σ) (cs : List Invocation)
    (w : World σ) :
    ((run abi fw cs w).g_src, (run abi fw cs w).g_dst) =
      (match (cs.filterMap start_frame).getLast? with
       | some p => (((get_adr (adr_at p 8) : Nat) : Int), ((get_adr (adr_at p 5) : Nat) : Int))
       | none => (w.g_src, w.g_dst)) := by
  induction cs using List.reverseRecOn with
  | nil => simp [run_nil]
  | append_singleton cs c ih =>
    rw [run_snoc, invoke_addresses, List.filterMap_append]
    cases hk : start_frame c with
    | none =>
      simp only [List.filterMap_cons, List.filterMap_nil, hk, List.append_nil]
      exact ih
    | some p =>
      simp [List.filterMap_cons, hk]

theorem filter_critical_lc_dump (pkt : Frame) :
    (lc_dump pkt).filter is_critical_or_address_store = [] := by
  simp [lc_dump, is_critical_or_address_store]

theorem call_start_critical_section {σ : Type} (fw : Firmware σ) (pkt : Frame) (w : World σ) :
    (emitted w (dmr_call_start_hook fw pkt w).2).filter is_critical_or_address_store =
      [.OS_ENTER_CRITICAL, .store .g_dst (get_adr (adr_at pkt 5) : Nat),
       .store .g_src (get_adr (adr_at pkt 8) : Nat),
       .OS_EXIT_CRITICAL (fw.OS_ENTER_CRITICAL w.fw).1] := by
  rw [emitted_of_out _ _ _ (call_start_out fw pkt w)]
  simp only [List.filter_append, filter_critical_lc_dump]
  split <;> simp [is_critical_or_address_store, call_started]

/-- C18. For every finite sequence of hook invocations from the state at system
start, `(g_src, g_dst)` is the `(src, dst)` decoded from the frame of the most
recent call-start invocation, or `(0, 0)` if there was none. The call-end, data,
sms and squelch hooks never change `g_src` or `g_dst`; the call-start hook
stores both, from the same frame, inside one critical section. -/
theorem shared_pair_is_last_start {σ : Type} (abi : ABI) (fw : Firmware σ)
    (cs : List Invocation) (promtg : uint8_t) (s0 : σ) :
    (let w1 := run abi fw cs (World.init promtg s0)
     (w1.g_src, w1.g_dst) =
      (match (cs.filterMap start_frame).getLast? with
       | some p => (((get_adr (adr_at p 8) : Nat) : Int), ((get_adr (adr_at p 5) : Nat) : Int))
       | none => (0, 0))) ∧
    (∀ (w : World σ) (pkt : Frame) (len : Int) (event : Nat) (mode : uint8_t),
      ((dmr_call_end_hook abi fw pkt w).2.g_src = w.g_src ∧
        (dmr_call_end_hook abi fw pkt w).2.g_dst = w.g_dst) ∧
      ((dmr_handle_data_hook abi fw pkt len w).2.g_src = w.g_src ∧
        (dmr_handle_data_hook abi fw pkt len w).2.g_dst = w.g_dst) ∧
      ((dmr_sms_arrive_hook abi fw pkt w).2.g_src = w.g_src ∧
        (dmr_sms_arrive_hook abi fw pkt w).2.g_dst = w.g_dst) ∧
      ((dmr_apply_squelch_hook fw event mode w).2.g_src = w.g_src ∧
        (dmr_apply_squelch_hook fw event mode w).2.g_dst = w.g_dst) ∧
      ((dmr_apply_privsquelch_hook fw event mode w).2.g_src = w.g_src ∧
        (dmr_apply_privsquelch_hook fw event mode w).2.g_dst = w.g_dst) ∧
      (dmr_call_start_hook fw pkt w).2.g_src = ((get_adr (adr_at pkt 8) : Nat) : Int) ∧
      (dmr_call_start_hook fw pkt w).2.g_dst = ((get_adr (adr_at pkt 5) : Nat) : Int) ∧
      (emitted w (dmr_call_start_hook fw pkt w).2).filter is_critical_or_address_store =
        [.OS_ENTER_CRITICAL, .store .g_dst (get_adr (adr_at pkt 5) : Nat),
         .store .g_src (get_adr (adr_at pkt 8) : Nat),
         .OS_EXIT_CRITICAL (fw.OS_ENTER_CRITICAL w.fw).1]) := by
  refine ⟨run_addresses abi fw cs (World.init promtg s0), ?_⟩
  intro w pkt len event mode
  exact ⟨⟨call_end_g_src abi fw pkt w, call_end_g_dst abi fw pkt w⟩,
    (handle_data_globals abi fw pkt len w).2, (sms_arrive_globals abi fw pkt w).2,
    (apply_squelch_globals fw event mode w).2, (apply_privsquelch_globals fw event mode w).2,
    call_start_g_src fw pkt w, call_start_g_dst fw pkt w, call_start_critical_section fw pkt w⟩

/-- C19. When `dmr_call_end_hook` is invoked in a call, the "Call from SRC to
DST ended." notification reports the addresses computed from that call-end frame
(offsets 8-10 and 5-7; on the radio, their big-endian triplets), whatever
`g_src` and `g_dst` hold. So after the documented start frame (3147092 to 99) an
end frame carrying 2 and 1 is reported as the end of a call from 2 to 1, while
the started notification and `g_src`, `g_dst` say 3147092 and 99. -/
theorem call_end_reports_its_own_frame {σ : Type} (abi : ABI) (fw : Firmware σ) (pkt : Frame)
    (w : World σ) (hin : w.incall ≠ 0) :
    (emitted w (dmr_call_end_hook abi fw pkt w).2).filter is_notification =
        [call_ended (char_adr abi pkt 8) (char_adr abi pkt 5)] ∧
      (abi.char_signed = false →
        char_adr abi pkt 8 = ((triplet pkt 8 : Nat) : Int) ∧
        char_adr abi pkt 5 = ((triplet pkt 5 : Nat) : Int)) ∧
      (∀ gs gd : Int,
        (emitted { w with g_src := gs, g_dst := gd }
          (dmr_call_end_hook abi fw pkt { w with g_src := gs, g_dst := gd }).2).filter
            is_notification =
          [call_ended (char_adr abi pkt 8) (char_adr abi pkt 5)]) ∧
      (∃ ps pe : Frame,
        let w2 := run arm_eabi (stub_firmware 0) [.call_start ps, .call_end pe] (World.init 0 ())
        notification_kinds w2.out = [true, false] ∧
          (w2.out.filter is_notification).map print_args =
            [[Arg.int 3147092, Arg.int 99], [Arg.int 2, Arg.int 1]] ∧
          (w2.g_src, w2.g_dst) = (3147092, 99)) := by
  have h := call_end_notifications abi fw pkt w
  rw [if_pos hin] at h
  refine ⟨h, ?_, ?_, ⟨call_start_example, call_end_other, by decide⟩⟩
  · intro hchar
    rw [char_adr_unsigned abi hchar, char_adr_unsigned abi hchar, get_adr_adr_at,
      get_adr_adr_at]
    exact ⟨rfl, rfl⟩
  · intro gs gd
    have h2 := call_end_notifications abi fw pkt { w with g_src := gs, g_dst := gd }
    rw [if_pos (show ({ w with g_src := gs, g_dst := gd } : World σ).incall ≠ 0 from hin)] at h2
    exact h2

/-- C19 in the state after the documented call-start frame, for an end frame
carrying 2 and 1, on the radio. -/
theorem call_end_reports_its_own_frame_witness :
    (invoke arm_eabi (stub_firmware 0) (.call_start call_start_example)
      (World.init 0 ())).incall ≠ 0 ∧
    (emitted (invoke arm_eabi (stub_firmware 0) (.call_start call_start_example)
        (World.init 0 ()))
      (dmr_call_end_hook arm_eabi (stub_firmware 0) call_end_other
        (invoke arm_eabi (stub_firmware 0) (.call_start call_start_example)
          (World.init 0 ()))).2).filter is_notification =
      [call_ended (char_adr arm_eabi call_end_other 8) (char_adr arm_eabi call_end_other 5)] ∧
    char_adr arm_eabi call_end_other 8 = 2 ∧ char_adr arm_eabi call_end_other 5 = 1 ∧
    (invoke arm_eabi (stub_firmware 0) (.call_start call_start_example)
      (World.init 0 ())).g_src = 3147092 ∧
    (invoke arm_eabi (stub_firmware 0) (.call_start call_start_example)
      (World.init 0 ())).g_dst = 99 :=
  ⟨by decide,
   (call_end_reports_its_own_frame arm_eabi (stub_firmware 0) call_end_other
     (invoke arm_eabi (stub_firmware 0) (.call_start call_start_example) (World.init 0 ()))
     (by decide)).1,
   by decide, by decide, by decide, by decide⟩

end MD380
